import Mathlib

/-!
# Verification of the BitFutura employee record manager

A shallow embedding of `employee_management.py`: the six field validators,
the `Employee` value object with its `to_dict`/`from_dict` serialization,
and the `EmployeeManagementSystem` record store (load, save, add, update,
delete, sorted listing, department report), together with proofs of the
spec's claims about them.

Python strings are modelled by Lean `String`; Python `float` salaries are
modelled by `ℚ` (decimal text parsed exactly; the binary rounding noise of
IEEE doubles is abstracted away, and `float("inf"/"nan")` is outside the
model, which covers decimal numeric literals).  A Python file is modelled
by its list of lines (without trailing newlines).
-/

namespace EmployeeManagement

/-! ## Python string primitives -/

/-- The ASCII whitespace characters stripped by Python's `str.strip()` and
matched by the regex class `\s`. -/
def isPyWs (c : Char) : Bool :=
  c = ' ' || c = '\t' || c = '\n' || c = '\r' || c = '\x0b' || c = '\x0c'

/-- `str.strip()` on a character list: drop leading and trailing whitespace. -/
def pyStripChars (cs : List Char) : List Char :=
  ((cs.dropWhile isPyWs).reverse.dropWhile isPyWs).reverse

/-- Python `s.strip()`. -/
def pyStrip (s : String) : String :=
  ⟨pyStripChars s.data⟩

/-- Python `s.split(d)` for a one-character separator `d` (no maxsplit):
`"".split(d) = [""]`, and separators at the ends produce empty fields. -/
def splitOnChar (d : Char) : List Char → List (List Char)
  | [] => [[]]
  | c :: rest =>
    let r := splitOnChar d rest
    if c = d then [] :: r
    else
      match r with
      | g :: gs => (c :: g) :: gs
      | [] => [[c]]

/-- `str.isalnum()`: non-empty and every character alphanumeric
(ASCII fragment of the Unicode classes used by the data at hand). -/
def pyIsAlnum (s : String) : Bool :=
  !s.data.isEmpty && s.data.all Char.isAlphanum

/-- `re.fullmatch('[class]+', s)`: non-empty and every character in the class. -/
def matchesClassPlus (p : Char → Bool) (s : String) : Bool :=
  !s.data.isEmpty && s.data.all p

/-- Python `a < b` on strings: lexicographic by code point, a proper
prefix comparing smaller. -/
def charsLt : List Char → List Char → Bool
  | _, [] => false
  | [], _ :: _ => true
  | a :: as, b :: bs => if a = b then charsLt as bs else decide (a < b)

/-- Python `a <= b` on strings, the order `sorted` sorts by. -/
def pyStrLe (a b : String) : Bool := !(charsLt b.data a.data)

/-! ## Python float() on decimal literals -/

/-- Numeric value of a decimal digit character. -/
def digitVal (c : Char) : Nat := c.toNat - 48

/-- Value of a big-endian digit string. -/
def charsVal (cs : List Char) : Nat :=
  cs.foldl (fun a c => 10 * a + digitVal c) 0

/-- Parse the mantissa part of a float literal: `digits`, `digits.digits`,
`digits.` or `.digits` (at least one digit overall). -/
def parseMantissa (cs : List Char) : Option ℚ :=
  let ip := cs.takeWhile Char.isDigit
  let rest := cs.dropWhile Char.isDigit
  if rest.isEmpty then
    if ip.isEmpty then none else some ((charsVal ip : ℕ) : ℚ)
  else if rest.headD ' ' = '.' then
    let rest2 := rest.tail
    let fp := rest2.takeWhile Char.isDigit
    if (rest2.dropWhile Char.isDigit).isEmpty && !(ip.isEmpty && fp.isEmpty) then
      some ((charsVal (ip ++ fp) : ℕ) / 10 ^ fp.length : ℚ)
    else none
  else none

/-- Parse an exponent suffix: optional sign then at least one digit. -/
def parseExp (cs : List Char) : Option ℤ :=
  match cs with
  | [] => none
  | c :: ds =>
    if c = '+' then
      if !ds.isEmpty && ds.all Char.isDigit then some ((charsVal ds : ℕ) : ℤ) else none
    else if c = '-' then
      if !ds.isEmpty && ds.all Char.isDigit then some (-((charsVal ds : ℕ) : ℤ)) else none
    else if (c :: ds).all Char.isDigit then some ((charsVal (c :: ds) : ℕ) : ℤ)
    else none

/-- `true` for every character except the exponent markers `e`/`E`. -/
def notExpChar (c : Char) : Bool := !(c = 'e' || c = 'E')

/-- Parse an unsigned float literal, mantissa and optional exponent. -/
def parseSignless (cs : List Char) : Option ℚ :=
  let mant := cs.takeWhile notExpChar
  let rest := cs.dropWhile notExpChar
  if rest.isEmpty then parseMantissa mant
  else
    match parseMantissa mant, parseExp rest.tail with
    | some m, some ex => some (m * (10 : ℚ) ^ ex)
    | _, _ => none

/-- Python `float(s)` on decimal literals: surrounding whitespace ignored,
then an optional sign and an unsigned literal with optional exponent.
Returns `none` where `float` raises `ValueError`. -/
def pyFloatChars (cs : List Char) : Option ℚ :=
  let t := pyStripChars cs
  if t.isEmpty then none
  else if t.headD ' ' = '+' then parseSignless t.tail
  else if t.headD ' ' = '-' then (parseSignless t.tail).map (fun q => -q)
  else parseSignless t

/-- Python `float(s)` on a string. -/
def pyFloat (s : String) : Option ℚ := pyFloatChars s.data

/-- The values Python `float()` can hand this program: a finite rational,
or one of the special values `nan`, `inf` and `-inf` that `float()` also
parses from their case-insensitive names. -/
inductive PyFloatVal where
  | finite (q : ℚ)
  | nan
  | inf
  | ninf
deriving DecidableEq, Repr

/-- Python `x < 0` on such a value: `nan < 0` and `inf < 0` are `False`,
`(-inf) < 0` is `True`. -/
def PyFloatVal.ltZero : PyFloatVal → Bool
  | .finite q => decide (q < 0)
  | .nan => false
  | .inf => false
  | .ninf => true

/-- The special float names `float()` accepts in an unsigned character
run: `nan`, `inf` and `infinity`, case-insensitively. -/
def parseSpecial (cs : List Char) : Option PyFloatVal :=
  let l := cs.map Char.toLower
  if l = ['n', 'a', 'n'] then some PyFloatVal.nan
  else if l = ['i', 'n', 'f'] then some PyFloatVal.inf
  else if l = ['i', 'n', 'f', 'i', 'n', 'i', 't', 'y'] then some PyFloatVal.inf
  else none

/-- Python `float(s)` with the special named values included: `pyFloat`
covers only finite numeric text, but `float("nan")`, `float("inf")`,
`float("-Infinity")` and the like succeed too.  A leading sign applies to
`inf`, while a signed `nan` is still `nan`; numeric text is delegated to
the same mantissa/exponent parse as `pyFloat`.  Underscore digit grouping
remains unmodelled. -/
def pyFloatFullChars (cs : List Char) : Option PyFloatVal :=
  let t := pyStripChars cs
  if t.isEmpty then none
  else if t.headD ' ' = '+' then
    match parseSpecial t.tail with
    | some v => some v
    | none => (parseSignless t.tail).map PyFloatVal.finite
  else if t.headD ' ' = '-' then
    match parseSpecial t.tail with
    | some PyFloatVal.inf => some PyFloatVal.ninf
    | some v => some v
    | none => (parseSignless t.tail).map (fun q => PyFloatVal.finite (-q))
  else
    match parseSpecial t with
    | some v => some v
    | none => (parseSignless t).map PyFloatVal.finite

/-- Python `float` applied to a string, full model. -/
def pyFloatFull (s : String) : Option PyFloatVal := pyFloatFullChars s.data

/-! ## Field validators (`is_valid_*_format` functions of the source) -/

/-- `is_valid_employee_id_format`: non-empty and alphanumeric. -/
def is_valid_employee_id_format (employee_id : String) : Bool × String :=
  if employee_id.data.isEmpty then (false, "Employee ID cannot be empty.")
  else if !pyIsAlnum employee_id then
    (false, "Employee ID must be alphanumeric (letters and numbers only).")
  else (true, "")

/-- Characters allowed by the name regex `[a-zA-Z ]`. -/
def isNameChar (c : Char) : Bool := c.isAlpha || c = ' '

/-- `is_valid_name_format`: non-empty after strip, letters and spaces only. -/
def is_valid_name_format (name : String) : Bool × String :=
  if name.data.isEmpty || (pyStrip name).data.isEmpty then
    (false, "Name cannot be empty.")
  else if !matchesClassPlus isNameChar (pyStrip name) then
    (false, "Name must contain only alphabetic characters and spaces.")
  else (true, "")

/-- Characters allowed by the department regex `[a-zA-Z0-9 \-]`. -/
def isDeptChar (c : Char) : Bool := c.isAlphanum || c = ' ' || c = '-'

/-- `is_valid_department_format`: non-empty after strip; letters, digits,
spaces and hyphens only. -/
def is_valid_department_format (department : String) : Bool × String :=
  if department.data.isEmpty || (pyStrip department).data.isEmpty then
    (false, "Department cannot be empty.")
  else if !matchesClassPlus isDeptChar (pyStrip department) then
    (false, "Department can only contain letters, numbers, spaces, and hyphens.")
  else (true, "")

/-- `is_valid_salary_format`: non-empty, parses as a float (`ValueError`
from `float` is the next branch), not negative. -/
def is_valid_salary_format (salary_str : String) : Bool × String :=
  if salary_str.data.isEmpty || (pyStrip salary_str).data.isEmpty then
    (false, "Salary cannot be empty.")
  else if (pyFloat salary_str).isNone then
    (false, "Salary must be a valid number (e.g., 50000 or 65000.50).")
  else if (pyFloat salary_str).getD 0 < 0 then
    (false, "Salary cannot be negative.")
  else (true, "")

/-- `is_valid_salary_format` rendered over the full `float()` model: the
same three source branches — empty, unparseable, negative — with the
special float values included in the parse. -/
def is_valid_salary_format_full (salary_str : String) : Bool × String :=
  if salary_str.data.isEmpty || (pyStrip salary_str).data.isEmpty then
    (false, "Salary cannot be empty.")
  else if (pyFloatFull salary_str).isNone then
    (false, "Salary must be a valid number (e.g., 50000 or 65000.50).")
  else if ((pyFloatFull salary_str).getD (PyFloatVal.finite 0)).ltZero then
    (false, "Salary cannot be negative.")
  else (true, "")

/-- `re.match('^\S+@\S+\.\S+$', s)` as a Boolean: no whitespace anywhere,
and positions `i < j` with `s[i] = '@'`, `s[j] = '.'`, and non-empty
segments before `i`, between `i` and `j`, and after `j`. -/
def matchEmail (cs : List Char) : Bool :=
  cs.all (fun c => !isPyWs c) &&
  (List.range cs.length).any (fun i =>
    (List.range cs.length).any (fun j =>
      decide (1 ≤ i) && decide (i + 2 ≤ j) && decide (j + 2 ≤ cs.length) &&
      (cs.getD i ' ' = '@') && (cs.getD j ' ' = '.')))

/-- `is_valid_email_format`: non-empty after strip and matching the email shape. -/
def is_valid_email_format (email : String) : Bool × String :=
  if email.data.isEmpty || (pyStrip email).data.isEmpty then
    (false, "Email cannot be empty.")
  else if !matchEmail (pyStrip email).data then
    (false, "Invalid email format (must contain '@' and '.', no spaces allowed).")
  else (true, "")

/-- `is_valid_contact_details_format`: non-empty after strip. -/
def is_valid_contact_details_format (contact_details : String) : Bool × String :=
  if contact_details.data.isEmpty || (pyStrip contact_details).data.isEmpty then
    (false, "Contact Details cannot be empty.")
  else (true, "")

/-! ## The Employee record -/

/-- One employee record, as stored after the constructor has validated and
stripped the raw inputs.  The salary is the parsed numeric value. -/
structure Employee where
  employee_id : String
  name : String
  department : String
  salary : ℚ
  email : String
  contact_details : String
deriving DecidableEq, Repr

/-- `is_valid_salary_format(str(salary))` when `salary` is already a float:
`str` of a float is non-empty and always re-parses as a float, so only the
negativity check can fail. -/
def salaryFloatValid (salary : ℚ) : Bool × String :=
  if salary < 0 then (false, "Salary cannot be negative.") else (true, "")

/-- `Employee.__init__`: validate each raw field in order, raising
(`Except.error`) the first validator's message on failure; on success store
every string field stripped and the salary as its numeric value. -/
def Employee.make (employee_id name department : String) (salary : ℚ)
    (email contact_details : String) : Except String Employee :=
  if !(is_valid_employee_id_format employee_id).1 then
    .error (is_valid_employee_id_format employee_id).2
  else if !(is_valid_name_format name).1 then
    .error (is_valid_name_format name).2
  else if !(is_valid_department_format department).1 then
    .error (is_valid_department_format department).2
  else if !(salaryFloatValid salary).1 then
    .error (salaryFloatValid salary).2
  else if !(is_valid_email_format email).1 then
    .error (is_valid_email_format email).2
  else if !(is_valid_contact_details_format contact_details).1 then
    .error (is_valid_contact_details_format contact_details).2
  else
    .ok { employee_id := pyStrip employee_id, name := pyStrip name,
          department := pyStrip department, salary := salary,
          email := pyStrip email, contact_details := pyStrip contact_details }

/-! ## Salary rendering: Python `f-string` `{salary:.2f}` -/

/-- The decimal digit character for `d < 10`. -/
def digitChar (d : Nat) : Char := Char.ofNat (48 + d)

/-- Little-endian decimal digit characters of `n`, with explicit fuel so
that the recursion is structural (empty for `0`). -/
def natDigitsRevAux : Nat → Nat → List Char
  | 0, _ => []
  | _ + 1, 0 => []
  | fuel + 1, n + 1 => digitChar ((n + 1) % 10) :: natDigitsRevAux fuel ((n + 1) / 10)

/-- Big-endian decimal digit characters of `n` (empty for `0`). -/
def natToChars (n : Nat) : List Char :=
  (natDigitsRevAux n n).reverse

/-- Decimal rendering of a natural number. -/
def natToString (n : Nat) : String :=
  if n = 0 then "0" else ⟨natToChars n⟩

/-- Exactly two decimal digits, zero-padded. -/
def pad2 (n : Nat) : String := ⟨[digitChar (n / 10 % 10), digitChar (n % 10)]⟩

/-- The salary scaled to cents and rounded half-up, `⌊q·100 + 1/2⌋`
(see `cents_eq_floor`), written with integer division so that it is
kernel-computable; the tie direction abstracts the binary-float formatting
noise. -/
def cents (q : ℚ) : ℤ := (200 * q.num + q.den) / (2 * (q.den : ℤ))

/-- `f"{salary:.2f}"`: the salary rounded to and rendered with exactly two
decimal digits. -/
def formatSalary2 (q : ℚ) : String :=
  let m : ℕ := (cents q).natAbs
  (if cents q < 0 then "-" else "") ++ natToString (m / 100) ++ "." ++ pad2 (m % 100)

/-- The salary value after rounding to two decimal places. -/
def round2 (q : ℚ) : ℚ := ((cents q : ℤ) : ℚ) / 100

/-! ## Serialization: `to_dict` / `from_dict` -/

/-- The fixed-key dictionary `{"Employee ID": …, …, "Contact Details": …}`
exchanged by `to_dict`/`from_dict` and the CSV layer; one field per key of
`EMPLOYEE_KEYS`, every value a string. -/
structure EmployeeDict where
  employee_id : String
  name : String
  department : String
  salary : String
  email : String
  contact_details : String
deriving DecidableEq, Repr

/-- `Employee.to_dict`: the six fields as strings, salary rendered `.2f`. -/
def Employee.to_dict (e : Employee) : EmployeeDict :=
  { employee_id := e.employee_id, name := e.name, department := e.department,
    salary := formatSalary2 e.salary, email := e.email,
    contact_details := e.contact_details }

/-- `Employee.from_dict`: try `float` on the salary text first — failure
yields `none` *without raising*; then delegate to the constructor, whose
`ValueError` propagates (`Except.error`). -/
def Employee.from_dict (d : EmployeeDict) : Except String (Option Employee) :=
  match pyFloat d.salary with
  | none => .ok none
  | some salary_float =>
    match Employee.make d.employee_id d.name d.department salary_float
        d.email d.contact_details with
    | .ok e => .ok (some e)
    | .error e => .error e

/-! ## The record store: persistence -/

/-- `EMPLOYEE_KEYS`: the fixed serialization field order. -/
def EMPLOYEE_KEYS : List String :=
  ["Employee ID", "Name", "Department", "Salary", "Email", "Contact Details"]

/-- `dict(zip(EMPLOYEE_KEYS, values))` viewed through `from_dict`'s
`.get(key, default)` calls (the one load-time call site always supplies
exactly six values). -/
def mkDict (values : List String) : EmployeeDict :=
  { employee_id := values.getD 0 "", name := values.getD 1 "",
    department := values.getD 2 "", salary := values.getD 3 "0",
    email := values.getD 4 "", contact_details := values.getD 5 "" }

/-- `line.strip().split(DELIMITER)` for the comma delimiter. -/
def splitVals (line : String) : List String :=
  (splitOnChar ',' (pyStrip line).data).map (fun cs => ⟨cs⟩)

/-- One line-skipping diagnostic printed by `_load_employees`. -/
inductive LoadDiag where
  /-- wrong delimiter-split arity on this 1-indexed line -/
  | malformed (lineNum : Nat)
  /-- `Employee.from_dict` returned `None` (unparseable salary text) -/
  | invalidData (lineNum : Nat)
  /-- a `ValueError` propagated from the `Employee` constructor -/
  | badFormat (lineNum : Nat)
  /-- the line's id duplicates one already accepted in this load pass -/
  | duplicateId (lineNum : Nat) (id : String)
deriving DecidableEq, Repr

/-- The body of `_load_employees`' line loop for one `(line_num, line)` pair:
skip blank lines silently; skip wrong-arity lines as malformed; otherwise
parse via `from_dict`, skipping `None` results, constructor errors and
duplicate ids (first seen wins), each with its diagnostic. -/
def loadStep (acc : List Employee × List LoadDiag) (p : Nat × String) :
    List Employee × List LoadDiag :=
  if (pyStrip p.2).data.isEmpty then acc
  else
    let values := splitVals p.2
    if values.length = EMPLOYEE_KEYS.length then
      match Employee.from_dict (mkDict values) with
      | .ok (some emp) =>
        if acc.1.any (fun ex => ex.employee_id = emp.employee_id) then
          (acc.1, acc.2 ++ [.duplicateId p.1 emp.employee_id])
        else (acc.1 ++ [emp], acc.2)
      | .ok none => (acc.1, acc.2 ++ [.invalidData p.1])
      | .error _ => (acc.1, acc.2 ++ [.badFormat p.1])
    else (acc.1, acc.2 ++ [.malformed p.1])

/-- `_load_employees` on the backing file's lines: the header line is read
and discarded, the remaining lines are processed with line numbers starting
at 2 (the header counts as line 1).  A missing or empty file is the empty
list of lines and yields an empty store. -/
def _load_employees (lines : List String) : List Employee × List LoadDiag :=
  match lines with
  | [] => ([], [])
  | _header :: rest => (rest.enumFrom 2).foldl loadStep ([], [])

/-- `_save_employees`: full rewrite — the delimiter-joined header followed
by one delimiter-joined `to_dict` line per record in store order.  No
quoting or escaping of field values is performed. -/
def _save_employees (st : List Employee) : List String :=
  String.intercalate "," EMPLOYEE_KEYS ::
    st.map (fun e =>
      String.intercalate ","
        [e.to_dict.employee_id, e.to_dict.name, e.to_dict.department,
         e.to_dict.salary, e.to_dict.email, e.to_dict.contact_details])

/-! ## The record store: lookup and mutation -/

/-- `_find_employee_by_id`: first record with the given id, else `none`. -/
def _find_employee_by_id (st : List Employee) (employee_id : String) :
    Option Employee :=
  st.find? (fun e => e.employee_id = employee_id)

/-- `_find_employee_index_by_id`: position of the first match (`-1` becomes
`none`). -/
def _find_employee_index_by_id (st : List Employee) (employee_id : String) :
    Option Nat :=
  st.findIdx? (fun e => e.employee_id = employee_id)

/-- `_is_employee_id_unique`: no current record has this id. -/
def _is_employee_id_unique (st : List Employee) (employee_id : String) : Bool :=
  _find_employee_by_id st employee_id = none

/-- One completed pass of `add_employee`, given the store and the six raw
input strings of the attempt.  An invalid or duplicate id, or any other
invalid field, leaves the store unchanged and persists nothing (`none`);
on success the constructed record is appended and the new store is saved
(the written lines are returned as evidence of persistence). -/
def add_employee (st : List Employee)
    (eid name dept sal email contact : String) :
    List Employee × Option (List String) :=
  let eidS := pyStrip eid
  if !(is_valid_employee_id_format eidS).1 then (st, none)
  else if !(_is_employee_id_unique st eidS) then (st, none)
  else
    let nameS := pyStrip name
    if !(is_valid_name_format nameS).1 then (st, none)
    else
      let deptS := pyStrip dept
      if !(is_valid_department_format deptS).1 then (st, none)
      else
        let salS := pyStrip sal
        if !(is_valid_salary_format salS).1 then (st, none)
        else
          let emailS := pyStrip email
          if !(is_valid_email_format emailS).1 then (st, none)
          else
            let contactS := pyStrip contact
            if !(is_valid_contact_details_format contactS).1 then (st, none)
            else
              match Employee.make eidS nameS deptS ((pyFloat salS).getD 0)
                  emailS contactS with
              | .ok e => (st ++ [e], some (_save_employees (st ++ [e])))
              | .error _ => (st, none)

/-- `update_employee`, given the store, the raw id input, the five raw
field inputs (an empty string after stripping means "keep current value")
and the confirmation answer.  Any invalid supplied field aborts the whole
update; an all-empty set of inputs cancels it; on a confirmed commit the
record at the found index is mutated in place — its id is never touched. -/
def update_employee (st : List Employee) (eidRaw : String)
    (nameIn deptIn salIn emailIn contactIn : String) (confirm : Bool) :
    List Employee :=
  if st.isEmpty then st
  else
    let eid := pyStrip eidRaw
    if !(is_valid_employee_id_format eid).1 then st
    else
      match _find_employee_index_by_id st eid with
      | none => st
      | some i =>
        match st[i]? with
        | none => st
        | some old =>
          let nameS := pyStrip nameIn
          let deptS := pyStrip deptIn
          let salS := pyStrip salIn
          let emailS := pyStrip emailIn
          let contactS := pyStrip contactIn
          if !nameS.data.isEmpty && !(is_valid_name_format nameS).1 then st
          else if !deptS.data.isEmpty && !(is_valid_department_format deptS).1 then st
          else if !salS.data.isEmpty && !(is_valid_salary_format salS).1 then st
          else if !emailS.data.isEmpty && !(is_valid_email_format emailS).1 then st
          else if !contactS.data.isEmpty && !(is_valid_contact_details_format contactS).1 then st
          else if nameS.data.isEmpty && deptS.data.isEmpty && salS.data.isEmpty
              && emailS.data.isEmpty && contactS.data.isEmpty then st
          else if !confirm then st
          else
            st.set i
              { old with
                name := if nameS.data.isEmpty then old.name else nameS,
                department := if deptS.data.isEmpty then old.department else deptS,
                salary := if salS.data.isEmpty then old.salary else (pyFloat salS).getD 0,
                email := if emailS.data.isEmpty then old.email else emailS,
                contact_details :=
                  if contactS.data.isEmpty then old.contact_details else contactS }

/-- `delete_employee`: remove the record at the found index, if confirmed. -/
def delete_employee (st : List Employee) (eidRaw : String) (confirm : Bool) :
    List Employee :=
  if st.isEmpty then st
  else
    let eid := pyStrip eidRaw
    if !(is_valid_employee_id_format eid).1 then st
    else
      match _find_employee_index_by_id st eid with
      | none => st
      | some i => if confirm then st.eraseIdx i else st

/-- `list_all_employees`: the displayed rows (all records sorted by id, a
transient copy made by Python's non-mutating `sorted`) paired with the
stored collection, which the method leaves untouched. -/
def list_all_employees (st : List Employee) : List Employee × List Employee :=
  (List.insertionSort
    (fun a b => pyStrLe a.employee_id b.employee_id = true) st, st)

/-! ## The department report -/

/-- `str.lower()` (ASCII fragment), written structurally over the
character list. -/
def pyToLower (s : String) : String := ⟨s.data.map Char.toLower⟩

/-- The grouping key: the department trimmed and lowercased, with the
`"uncategorized"` sentinel for a falsy (empty) department string. -/
def deptKey (e : Employee) : String :=
  if e.department.data.isEmpty then "uncategorized"
  else pyToLower (pyStrip e.department)

/-- The group's display name: the department of the group's first record,
trimmed, with the `"Uncategorized"` sentinel for an empty department. -/
def deptDisplay (e : Employee) : String :=
  if e.department.data.isEmpty then "Uncategorized" else pyStrip e.department

/-- One bucket of the insertion-ordered `departments_data` dictionary. -/
structure DeptEntry where
  key : String
  display_name : String
  members : List Employee
deriving DecidableEq, Repr

/-- Insert one employee into the insertion-ordered bucket list: append to
the bucket with its key, or open a new bucket at the end. -/
def insertEntry (gs : List DeptEntry) (e : Employee) : List DeptEntry :=
  match gs with
  | [] => [⟨deptKey e, deptDisplay e, [e]⟩]
  | g :: rest =>
    if g.key = deptKey e then { g with members := g.members ++ [e] } :: rest
    else g :: insertEntry rest e

/-- The `departments_data` dictionary built by the report's first loop. -/
def groupByDept (st : List Employee) : List DeptEntry :=
  st.foldl insertEntry []

/-- One printed group of the department report. -/
structure DeptGroup where
  display_name : String
  members : List Employee
  count : Nat
  total_salary : ℚ
deriving DecidableEq, Repr

/-- Render one bucket: members sorted by name (Python's stable `sorted`),
the employee count, and the salary total accumulated over the sorted list. -/
def mkGroup (g : DeptEntry) : DeptGroup :=
  let sortedMembers :=
    List.insertionSort (fun a b => pyStrLe a.name b.name = true) g.members
  ⟨g.display_name, sortedMembers, g.members.length,
    (sortedMembers.map (fun e => e.salary)).sum⟩

/-- The complete output of `generate_department_report`. -/
structure DeptReport where
  groups : List DeptGroup
  department_count : Nat
  total_employees : Nat
deriving DecidableEq, Repr

/-- `generate_department_report`: group by department key, order the groups
by display name, render each, and accumulate the grand total employee
count. -/
def generate_department_report (st : List Employee) : DeptReport :=
  let entries := groupByDept st
  let sortedEntries :=
    List.insertionSort
      (fun a b : DeptEntry => pyStrLe a.display_name b.display_name = true) entries
  let groups := sortedEntries.map mkGroup
  ⟨groups, entries.length, (groups.map (fun g => g.count)).sum⟩

/-! ## Reachable store states -/

/-- The store states reachable through the system's lifecycle: an initial
load from some backing file, followed by any sequence of add, update and
delete operations. -/
inductive Reachable : List Employee → Prop where
  | load (lines : List String) : Reachable (_load_employees lines).1
  | add (st : List Employee) (eid name dept sal email contact : String) :
      Reachable st → Reachable (add_employee st eid name dept sal email contact).1
  | update (st : List Employee) (eid nm dp sl em ct : String) (confirm : Bool) :
      Reachable st → Reachable (update_employee st eid nm dp sl em ct confirm)
  | delete (st : List Employee) (eid : String) (confirm : Bool) :
      Reachable st → Reachable (delete_employee st eid confirm)

/-! ## Lemmas: stripping -/

theorem dropWhile_eq_self_of_head {α : Type} (p : α → Bool) (l : List α)
    (h : ∀ c, l.head? = some c → p c = false) : l.dropWhile p = l := by
  cases l with
  | nil => rfl
  | cons c t => exact List.dropWhile_cons_of_neg (by simp [h c rfl])

theorem head_dropWhile_false {α : Type} (p : α → Bool) (l : List α) (c : α)
    (h : (l.dropWhile p).head? = some c) : p c = false := by
  induction l with
  | nil => simp at h
  | cons x xs ih =>
    rw [List.dropWhile_cons] at h
    split at h
    · exact ih h
    · simp only [List.head?_cons, Option.some.injEq] at h
      subst h
      simp_all

theorem dropWhile_eq_self_of_all {α : Type} (p : α → Bool) (l : List α)
    (h : ∀ c ∈ l, p c = false) : l.dropWhile p = l := by
  refine dropWhile_eq_self_of_head p l (fun c hc => h c ?_)
  cases l with
  | nil => simp at hc
  | cons x xs => simp only [List.head?_cons, Option.some.injEq] at hc; simp [hc]

theorem pyStripChars_of_no_ws (cs : List Char)
    (h : ∀ c ∈ cs, isPyWs c = false) : pyStripChars cs = cs := by
  unfold pyStripChars
  rw [dropWhile_eq_self_of_all _ _ h,
    dropWhile_eq_self_of_all _ _ (fun c hc => h c (List.mem_reverse.mp hc)),
    List.reverse_reverse]

theorem pyStripChars_idem (cs : List Char) :
    pyStripChars (pyStripChars cs) = pyStripChars cs := by
  unfold pyStripChars
  set l1 := cs.dropWhile isPyWs with hl1
  set r := l1.reverse.dropWhile isPyWs with hr
  rcases Decidable.em (r = []) with h0 | h0
  · rw [h0]; rfl
  · have hhead : ∀ c, l1.head? = some c → isPyWs c = false :=
      fun c hc => head_dropWhile_false isPyWs cs c (hl1 ▸ hc)
    have hrlast : r.getLast? = l1.head? := by
      have hsplit : l1.reverse.takeWhile isPyWs ++ r = l1.reverse := by
        rw [hr]; exact List.takeWhile_append_dropWhile isPyWs l1.reverse
      have := congrArg List.getLast? hsplit
      rw [List.getLast?_append, List.getLast?_reverse] at this
      rcases hlast : r.getLast? with _ | x
      · exact absurd (List.getLast?_eq_none_iff.mp hlast) h0
      · rw [hlast] at this; simpa using this
    have hstep1 : r.reverse.dropWhile isPyWs = r.reverse := by
      refine dropWhile_eq_self_of_head _ _ (fun c hc => ?_)
      rw [List.head?_reverse, hrlast] at hc
      exact hhead c hc
    rw [hstep1, List.reverse_reverse]
    have hstep2 : r.dropWhile isPyWs = r := by
      refine dropWhile_eq_self_of_head _ _ (fun c hc => ?_)
      exact head_dropWhile_false isPyWs l1.reverse c (hr ▸ hc)
    rw [hstep2]

theorem pyStrip_data (s : String) : (pyStrip s).data = pyStripChars s.data := rfl

theorem pyStrip_idem (s : String) : pyStrip (pyStrip s) = pyStrip s := by
  show String.mk (pyStripChars (pyStripChars s.data)) = String.mk (pyStripChars s.data)
  rw [pyStripChars_idem]

theorem pyStrip_of_no_ws (s : String) (h : ∀ c ∈ s.data, isPyWs c = false) :
    pyStrip s = s := by
  show String.mk (pyStripChars s.data) = s
  rw [pyStripChars_of_no_ws s.data h]

theorem isPyWs_false_of_alnum (c : Char) (h : c.isAlphanum = true) :
    isPyWs c = false := by
  by_contra hc
  simp only [Bool.not_eq_false] at hc
  simp only [isPyWs, Bool.or_eq_true, decide_eq_true_eq] at hc
  rcases hc with ((((h' | h') | h') | h') | h') | h' <;> subst h' <;> simp at h

theorem isPyWs_false_of_digit (c : Char) (h : c.isDigit = true) :
    isPyWs c = false := by
  by_contra hc
  simp only [Bool.not_eq_false] at hc
  simp only [isPyWs, Bool.or_eq_true, decide_eq_true_eq] at hc
  rcases hc with ((((h' | h') | h') | h') | h') | h' <;> subst h' <;> simp at h

/-! ## Lemmas: validators are invariant under stripping -/

theorem strip_isEmpty_absorb (s : String) :
    (s.data.isEmpty || (pyStrip s).data.isEmpty) = (pyStrip s).data.isEmpty := by
  cases hs : s.data.isEmpty
  · simp
  · have : s.data = [] := by simpa using hs
    simp [pyStrip_data, this, pyStripChars]

theorem is_valid_name_format_pyStrip (s : String) :
    is_valid_name_format (pyStrip s) = is_valid_name_format s := by
  unfold is_valid_name_format
  rw [pyStrip_idem, Bool.or_self, strip_isEmpty_absorb]

theorem is_valid_department_format_pyStrip (s : String) :
    is_valid_department_format (pyStrip s) = is_valid_department_format s := by
  unfold is_valid_department_format
  rw [pyStrip_idem, Bool.or_self, strip_isEmpty_absorb]

theorem is_valid_email_format_pyStrip (s : String) :
    is_valid_email_format (pyStrip s) = is_valid_email_format s := by
  unfold is_valid_email_format
  rw [pyStrip_idem, Bool.or_self, strip_isEmpty_absorb]

theorem is_valid_contact_details_format_pyStrip (s : String) :
    is_valid_contact_details_format (pyStrip s) = is_valid_contact_details_format s := by
  unfold is_valid_contact_details_format
  rw [strip_isEmpty_absorb (pyStrip s), pyStrip_idem, strip_isEmpty_absorb]

theorem pyFloat_pyStrip (s : String) : pyFloat (pyStrip s) = pyFloat s := by
  unfold pyFloat pyFloatChars
  rw [pyStrip_data, pyStripChars_idem]

theorem is_valid_salary_format_pyStrip (s : String) :
    is_valid_salary_format (pyStrip s) = is_valid_salary_format s := by
  unfold is_valid_salary_format
  rw [strip_isEmpty_absorb (pyStrip s), pyStrip_idem, strip_isEmpty_absorb, pyFloat_pyStrip]

theorem pyStrip_of_valid_id (s : String)
    (h : (is_valid_employee_id_format s).1 = true) : pyStrip s = s := by
  unfold is_valid_employee_id_format at h
  split at h
  · simp at h
  · split at h
    · simp at h
    · rename_i halnum
      simp only [Bool.not_eq_true', Bool.not_eq_false] at halnum
      simp only [pyIsAlnum, Bool.and_eq_true, List.all_eq_true] at halnum
      exact pyStrip_of_no_ws s
        (fun c hc => isPyWs_false_of_alnum c (halnum.2 c hc))

/-! ## Lemmas: digit strings and their values -/

theorem digitChar_spec (d : Nat) (h : d < 10) :
    digitVal (digitChar d) = d ∧ (digitChar d).isDigit = true ∧
    notExpChar (digitChar d) = true ∧ digitChar d ≠ '.' ∧
    digitChar d ≠ '+' ∧ digitChar d ≠ '-' := by
  interval_cases d <;> exact (by decide)

theorem charsVal_cons (cs : List Char) (a : Nat) :
    cs.foldl (fun a c => 10 * a + digitVal c) a
      = a * 10 ^ cs.length + charsVal cs := by
  induction cs generalizing a with
  | nil => simp [charsVal]
  | cons x xs ih =>
    show xs.foldl _ (10 * a + digitVal x) = _
    rw [ih (10 * a + digitVal x)]
    have hx : charsVal (x :: xs) = digitVal x * 10 ^ xs.length + charsVal xs := by
      show xs.foldl _ (10 * 0 + digitVal x) = _
      rw [ih (10 * 0 + digitVal x)]; ring
    rw [hx]
    simp [List.length_cons, pow_succ]
    ring

theorem charsVal_append (I F : List Char) :
    charsVal (I ++ F) = charsVal I * 10 ^ F.length + charsVal F := by
  show (I ++ F).foldl _ 0 = _
  rw [List.foldl_append]
  exact charsVal_cons F (charsVal I)

theorem natDigitsRevAux_val (fuel : Nat) :
    ∀ n, n ≤ fuel → charsVal (natDigitsRevAux fuel n).reverse = n := by
  induction fuel with
  | zero =>
    intro n hn
    have h0 : n = 0 := by omega
    subst h0
    rfl
  | succ fuel ih =>
    intro n hn
    match n with
    | 0 => rfl
    | n + 1 =>
      show charsVal ((digitChar ((n + 1) % 10) ::
        natDigitsRevAux fuel ((n + 1) / 10)).reverse) = n + 1
      rw [List.reverse_cons, charsVal_append, ih ((n + 1) / 10) (by omega)]
      have hd := (digitChar_spec ((n + 1) % 10) (Nat.mod_lt _ (by norm_num))).1
      simp only [List.length_cons, List.length_nil, charsVal, List.foldl_cons,
        List.foldl_nil, pow_one, hd]
      omega

theorem natDigitsRevAux_digits (fuel : Nat) :
    ∀ n c, c ∈ natDigitsRevAux fuel n → c.isDigit = true := by
  induction fuel with
  | zero =>
    intro n c hc
    simp [natDigitsRevAux] at hc
  | succ fuel ih =>
    intro n c hc
    match n with
    | 0 => simp [natDigitsRevAux] at hc
    | n + 1 =>
      rcases List.mem_cons.mp hc with h | h
      · rw [h]
        exact (digitChar_spec _ (Nat.mod_lt _ (by norm_num))).2.1
      · exact ih _ c h

theorem natToString_spec (n : Nat) :
    (natToString n).data ≠ [] ∧ (∀ c ∈ (natToString n).data, c.isDigit = true) ∧
    charsVal (natToString n).data = n := by
  unfold natToString
  split
  · rename_i h
    subst h
    exact ⟨by decide, by decide, by decide⟩
  · rename_i h
    refine ⟨?_, ?_, ?_⟩
    · show natToChars n ≠ []
      unfold natToChars
      simp only [ne_eq, List.reverse_eq_nil_iff]
      match n, h with
      | n + 1, _ => simp [natDigitsRevAux]
    · intro c hc
      exact natDigitsRevAux_digits n n c (List.mem_reverse.mp hc)
    · exact natDigitsRevAux_val n n (le_refl n)

/-! ## Lemmas: parsing back a rendered salary -/

theorem takeWhile_eq_self_of_all {α : Type} (p : α → Bool) (l : List α)
    (h : ∀ a ∈ l, p a = true) : l.takeWhile p = l := by
  induction l with
  | nil => rfl
  | cons x xs ih =>
    rw [List.takeWhile_cons_of_pos (h x (List.mem_cons_self x xs)),
      ih (fun a ha => h a (List.mem_cons_of_mem x ha))]

theorem dropWhile_eq_nil_of_all {α : Type} (p : α → Bool) (l : List α)
    (h : ∀ a ∈ l, p a = true) : l.dropWhile p = [] := by
  induction l with
  | nil => rfl
  | cons x xs ih =>
    rw [List.dropWhile_cons_of_pos (h x (List.mem_cons_self x xs))]
    exact ih (fun a ha => h a (List.mem_cons_of_mem x ha))

theorem notExpChar_of_digit (c : Char) (h : c.isDigit = true) :
    notExpChar c = true := by
  unfold notExpChar
  simp only [Bool.not_eq_true', Bool.or_eq_false_iff, decide_eq_false_iff_not]
  constructor
  · rintro rfl; exact absurd h (by decide)
  · rintro rfl; exact absurd h (by decide)

theorem digit_ne_plus (c : Char) (h : c.isDigit = true) : ¬(c = '+') := by
  rintro rfl; exact absurd h (by decide)

theorem digit_ne_minus (c : Char) (h : c.isDigit = true) : ¬(c = '-') := by
  rintro rfl; exact absurd h (by decide)

theorem list_isEmpty_false_of_ne_nil {α : Type} (l : List α) (h : l ≠ []) :
    l.isEmpty = false := by
  cases l with
  | nil => exact absurd rfl h
  | cons a b => rfl

theorem parseMantissa_decimal (I F : List Char) (hI : I ≠ [])
    (hId : ∀ c ∈ I, c.isDigit = true) (hF : ∀ c ∈ F, c.isDigit = true) :
    parseMantissa (I ++ '.' :: F) = some ((charsVal (I ++ F) : ℕ) / 10 ^ F.length : ℚ) := by
  have htake : (I ++ '.' :: F).takeWhile Char.isDigit = I := by
    rw [List.takeWhile_append_of_pos hId, List.takeWhile_cons_of_neg (by decide),
      List.append_nil]
  have hdrop : (I ++ '.' :: F).dropWhile Char.isDigit = '.' :: F := by
    rw [List.dropWhile_append_of_pos hId, List.dropWhile_cons_of_neg (by decide)]
  simp only [parseMantissa, htake, hdrop, List.isEmpty_cons, List.headD_cons,
    List.tail_cons, takeWhile_eq_self_of_all Char.isDigit F hF,
    dropWhile_eq_nil_of_all Char.isDigit F hF, List.isEmpty_nil,
    list_isEmpty_false_of_ne_nil I hI, Bool.false_eq_true, if_false,
    Bool.false_and, Bool.not_false, Bool.true_and, if_true]

theorem parseSignless_decimal (I F : List Char) (hI : I ≠ [])
    (hId : ∀ c ∈ I, c.isDigit = true) (hF : ∀ c ∈ F, c.isDigit = true) :
    parseSignless (I ++ '.' :: F) = some ((charsVal (I ++ F) : ℕ) / 10 ^ F.length : ℚ) := by
  have hne : ∀ c ∈ I ++ '.' :: F, notExpChar c = true := by
    intro c hc
    rcases List.mem_append.mp hc with h | h
    · exact notExpChar_of_digit c (hId c h)
    · rcases List.mem_cons.mp h with h | h
      · subst h; decide
      · exact notExpChar_of_digit c (hF c h)
  simp only [parseSignless, takeWhile_eq_self_of_all notExpChar _ hne,
    dropWhile_eq_nil_of_all notExpChar _ hne, List.isEmpty_nil, if_true]
  exact parseMantissa_decimal I F hI hId hF

theorem pyFloatChars_decimal (I F : List Char) (hI : I ≠ [])
    (hId : ∀ c ∈ I, c.isDigit = true) (hF : ∀ c ∈ F, c.isDigit = true) :
    pyFloatChars (I ++ '.' :: F) = some ((charsVal (I ++ F) : ℕ) / 10 ^ F.length : ℚ) := by
  have hnw : ∀ c ∈ I ++ '.' :: F, isPyWs c = false := by
    intro c hc
    rcases List.mem_append.mp hc with h | h
    · exact isPyWs_false_of_digit c (hId c h)
    · rcases List.mem_cons.mp h with h | h
      · subst h; decide
      · exact isPyWs_false_of_digit c (hF c h)
  obtain ⟨c0, I', rfl⟩ : ∃ c0 I', I = c0 :: I' := by
    cases I with
    | nil => exact absurd rfl hI
    | cons a b => exact ⟨a, b, rfl⟩
  have hc0 : c0.isDigit = true := hId c0 (List.mem_cons_self c0 I')
  simp only [pyFloatChars, pyStripChars_of_no_ws _ hnw]
  simp only [List.cons_append, List.isEmpty_cons, Bool.false_eq_true, if_false,
    List.headD_cons]
  rw [if_neg (digit_ne_plus c0 hc0), if_neg (digit_ne_minus c0 hc0),
    ← List.cons_append]
  exact parseSignless_decimal (c0 :: I') F hI hId hF

theorem cents_eq_floor (q : ℚ) : cents q = ⌊q * 100 + 1 / 2⌋ := by
  have hden : ((q.den : ℚ)) ≠ 0 := by exact_mod_cast q.den_ne_zero
  have h2 : q * 100 + 1 / 2
      = ((200 * q.num + (q.den : ℤ) : ℤ) : ℚ) / ((2 * q.den : ℕ) : ℚ) := by
    conv_lhs => rw [← Rat.num_div_den q]
    push_cast
    field_simp
    ring
  rw [h2, Rat.floor_intCast_div_natCast]
  unfold cents
  push_cast
  ring

theorem cents_nonneg (q : ℚ) (h : 0 ≤ q) : 0 ≤ cents q := by
  rw [cents_eq_floor, Int.le_floor]
  push_cast
  linarith

theorem round2_nonneg (q : ℚ) (h : 0 ≤ q) : 0 ≤ round2 q := by
  unfold round2
  have := cents_nonneg q h
  positivity

theorem round2_round2 (q : ℚ) : round2 (round2 q) = round2 q := by
  have h0 : ⌊(1 : ℚ) / 2⌋ = 0 := by
    rw [Int.floor_eq_zero_iff, Set.mem_Ico]
    norm_num
  unfold round2
  rw [cents_eq_floor, div_mul_cancel₀ _ (by norm_num : (100 : ℚ) ≠ 0),
    Int.floor_int_add, h0, add_zero]

theorem pyFloat_formatSalary2 (q : ℚ) (h : 0 ≤ q) :
    pyFloat (formatSalary2 q) = some (round2 q) := by
  have hn : 0 ≤ cents q := cents_nonneg q h
  have hIF : (formatSalary2 q).data =
      (natToString ((cents q).natAbs / 100)).data ++
        '.' :: (pad2 ((cents q).natAbs % 100)).data := by
    unfold formatSalary2
    rw [if_neg (not_lt.mpr hn)]
    simp [pad2]
  have hI1 : (natToString ((cents q).natAbs / 100)).data ≠ [] :=
    (natToString_spec _).1
  have hId : ∀ c ∈ (natToString ((cents q).natAbs / 100)).data, c.isDigit = true :=
    (natToString_spec _).2.1
  have hFd : ∀ c ∈ (pad2 ((cents q).natAbs % 100)).data, c.isDigit = true := by
    intro c hc
    have e1 := (digitChar_spec ((cents q).natAbs % 100 / 10 % 10)
      (Nat.mod_lt _ (by norm_num))).2.1
    have e2 := (digitChar_spec ((cents q).natAbs % 100 % 10)
      (Nat.mod_lt _ (by norm_num))).2.1
    rcases List.mem_cons.mp hc with h' | h'
    · rw [h']; exact e1
    · rcases List.mem_cons.mp h' with h2 | h2
      · rw [h2]; exact e2
      · simp at h2
  unfold pyFloat
  rw [hIF, pyFloatChars_decimal _ _ hI1 hId hFd]
  congr 1
  have hvalI : charsVal (natToString ((cents q).natAbs / 100)).data
      = (cents q).natAbs / 100 := (natToString_spec _).2.2
  have hvalF : charsVal (pad2 ((cents q).natAbs % 100)).data
      = (cents q).natAbs % 100 := by
    show charsVal [digitChar ((cents q).natAbs % 100 / 10 % 10),
      digitChar ((cents q).natAbs % 100 % 10)] = (cents q).natAbs % 100
    have e1 := (digitChar_spec ((cents q).natAbs % 100 / 10 % 10)
      (Nat.mod_lt _ (by norm_num))).1
    have e2 := (digitChar_spec ((cents q).natAbs % 100 % 10)
      (Nat.mod_lt _ (by norm_num))).1
    simp only [charsVal, List.foldl_cons, List.foldl_nil, e1, e2]
    omega
  have hlenF : (pad2 ((cents q).natAbs % 100)).data.length = 2 := rfl
  rw [charsVal_append, hvalI, hvalF, hlenF]
  have hm : (cents q).natAbs / 100 * 10 ^ 2 + (cents q).natAbs % 100
      = (cents q).natAbs := by omega
  rw [hm]
  unfold round2
  have hmn : (((cents q).natAbs : ℚ)) = ((cents q : ℤ) : ℚ) := by
    rw [Int.cast_natAbs]
    exact_mod_cast abs_of_nonneg hn
  rw [hmn]
  norm_num

/-! ## Lemmas: the constructor -/

theorem salaryFloatValid_fst (q : ℚ) : (salaryFloatValid q).1 = !decide (q < 0) := by
  unfold salaryFloatValid
  split_ifs with h <;> simp [h]

theorem bool_of_not_not (b : Bool) (h : ¬((!b) = true)) : b = true := by
  cases b <;> simp_all

theorem make_ok_iff (i n d : String) (q : ℚ) (em c : String) (e : Employee) :
    Employee.make i n d q em c = Except.ok e ↔
      ((is_valid_employee_id_format i).1 = true ∧ (is_valid_name_format n).1 = true ∧
       (is_valid_department_format d).1 = true ∧ 0 ≤ q ∧
       (is_valid_email_format em).1 = true ∧
       (is_valid_contact_details_format c).1 = true ∧
       e = ⟨pyStrip i, pyStrip n, pyStrip d, q, pyStrip em, pyStrip c⟩) := by
  constructor
  · intro h
    unfold Employee.make at h
    rw [salaryFloatValid_fst] at h
    simp only [Bool.not_not] at h
    split_ifs at h with hb1 hb2 hb3 hb4 hb5 hb6
    injection h with he
    have hq : ¬(q < 0) := fun hq0 => hb4 (decide_eq_true hq0)
    exact ⟨bool_of_not_not _ hb1, bool_of_not_not _ hb2, bool_of_not_not _ hb3,
      not_lt.mp hq, bool_of_not_not _ hb5, bool_of_not_not _ hb6, he.symm⟩
  · rintro ⟨h1, h2, h3, h4, h5, h6, rfl⟩
    unfold Employee.make
    rw [salaryFloatValid_fst]
    simp [h1, h2, h3, h5, h6, Bool.not_not, decide_eq_true_eq, not_lt.mpr h4]

theorem string_eq_empty_iff (s : String) : s = "" ↔ s.data = [] := by
  constructor
  · rintro rfl; rfl
  · intro h
    cases s with
    | mk data =>
      simp only at h
      rw [h]

/-! ## Claim C4: asymmetric failure modes of from_dict -/

/-- C4: when the Salary text does not parse, `from_dict` yields no record
without raising; when it parses but the constructor rejects some field, the
constructor's error propagates to `from_dict`'s caller. -/
theorem from_dict_failure_asymmetry :
    (∀ dd : EmployeeDict, pyFloat dd.salary = none →
        Employee.from_dict dd = Except.ok none) ∧
    (∀ (dd : EmployeeDict) (q : ℚ) (msg : String),
        pyFloat dd.salary = some q →
        Employee.make dd.employee_id dd.name dd.department q dd.email
          dd.contact_details = Except.error msg →
        Employee.from_dict dd = Except.error msg) := by
  constructor
  · intro dd h
    unfold Employee.from_dict
    simp only [h]
  · intro dd q msg hq hmk
    unfold Employee.from_dict
    simp only [hq, hmk]

/-- Witness for C4: a non-numeric salary is swallowed as `none`; a bad name
with a numeric salary raises the name validator's message. -/
theorem from_dict_failure_asymmetry_witness :
    Employee.from_dict ⟨"E1", "Al", "Eng", "abc", "a@b.c", "123"⟩
      = Except.ok none ∧
    Employee.from_dict ⟨"E1", "Al3", "Eng", "5", "a@b.c", "123"⟩
      = Except.error "Name must contain only alphabetic characters and spaces." :=
  ⟨from_dict_failure_asymmetry.1 _ (by decide),
   from_dict_failure_asymmetry.2 _ 5 _ (by decide) (by rfl)⟩

/-! ## Claim C2: serialization round-trip -/

/-- C2: for every validly constructed Employee, `from_dict (to_dict e)`
succeeds and returns a record equal to `e` in all six fields, the salary
being compared after rounding to two decimal places. -/
theorem to_dict_from_dict_roundtrip (i n d : String) (q : ℚ) (em c : String)
    (e : Employee) (h : Employee.make i n d q em c = Except.ok e) :
    ∃ ee : Employee, Employee.from_dict e.to_dict = Except.ok (some ee) ∧
      ee.employee_id = e.employee_id ∧ ee.name = e.name ∧
      ee.department = e.department ∧ round2 ee.salary = round2 e.salary ∧
      ee.email = e.email ∧ ee.contact_details = e.contact_details := by
  obtain ⟨h1, h2, h3, h4, h5, h6, rfl⟩ := (make_ok_iff i n d q em c e).mp h
  refine ⟨⟨pyStrip i, pyStrip n, pyStrip d, round2 q, pyStrip em, pyStrip c⟩,
    ?_, rfl, rfl, rfl, round2_round2 q, rfl, rfl⟩
  have hmk : Employee.make (pyStrip i) (pyStrip n) (pyStrip d) (round2 q)
      (pyStrip em) (pyStrip c)
      = Except.ok ⟨pyStrip i, pyStrip n, pyStrip d, round2 q, pyStrip em, pyStrip c⟩ := by
    refine (make_ok_iff _ _ _ _ _ _ _).mpr ⟨?_, ?_, ?_, round2_nonneg q h4, ?_, ?_, ?_⟩
    · rw [pyStrip_of_valid_id i h1]
      exact h1
    · rw [is_valid_name_format_pyStrip]
      exact h2
    · rw [is_valid_department_format_pyStrip]
      exact h3
    · rw [is_valid_email_format_pyStrip]
      exact h5
    · rw [is_valid_contact_details_format_pyStrip]
      exact h6
    · rw [pyStrip_idem, pyStrip_idem, pyStrip_idem, pyStrip_idem, pyStrip_idem,
        pyStrip_of_valid_id i h1]
  unfold Employee.to_dict Employee.from_dict
  simp only [pyFloat_formatSalary2 q h4, hmk]

/-- Witness for C2 at a concrete employee. -/
theorem to_dict_from_dict_roundtrip_witness :
    ∃ ee : Employee,
      Employee.from_dict
          (Employee.to_dict ⟨"E1", "Al", "Eng", 100, "a@b.c", "123"⟩)
        = Except.ok (some ee) ∧
      ee.employee_id = "E1" ∧ ee.name = "Al" ∧ ee.department = "Eng" ∧
      round2 ee.salary = round2 100 ∧ ee.email = "a@b.c" ∧
      ee.contact_details = "123" :=
  to_dict_from_dict_roundtrip "E1" "Al" "Eng" 100 "a@b.c" "123"
    ⟨"E1", "Al", "Eng", 100, "a@b.c", "123"⟩ (by rfl)

/-! ## Lemmas: the Python string order agrees with Lean's -/

theorem charsLt_iff (as bs : List Char) : charsLt as bs = true ↔ as < bs := by
  induction as generalizing bs with
  | nil =>
    cases bs with
    | nil =>
      simp only [charsLt, Bool.false_eq_true, false_iff]
      intro h
      cases h
    | cons b bs =>
      simp only [charsLt, true_iff]
      exact List.Lex.nil
  | cons a as ih =>
    cases bs with
    | nil =>
      simp only [charsLt, Bool.false_eq_true, false_iff]
      intro h
      cases h
    | cons b bs =>
      show (if a = b then charsLt as bs else decide (a < b)) = true ↔ _
      split_ifs with hab
      · subst hab
        rw [ih bs]
        constructor
        · intro h
          exact List.Lex.cons h
        · intro h
          cases h with
          | cons h => exact h
          | rel h => exact absurd h (lt_irrefl a)
      · rw [decide_eq_true_eq]
        constructor
        · intro h
          exact List.Lex.rel h
        · intro h
          cases h with
          | cons h => exact absurd rfl hab
          | rel h => exact h

theorem pyStrLe_iff (a b : String) : pyStrLe a b = true ↔ a ≤ b := by
  unfold pyStrLe
  rw [Bool.not_eq_true']
  constructor
  · intro h
    rw [← not_lt]
    intro hlt
    rw [String.lt_iff_toList_lt] at hlt
    have : charsLt b.data a.data = true := (charsLt_iff b.data a.data).mpr hlt
    rw [this] at h
    exact Bool.noConfusion h
  · intro h
    rw [← not_lt] at h
    cases hc : charsLt b.data a.data
    · rfl
    · exact absurd (String.lt_iff_toList_lt.mpr ((charsLt_iff b.data a.data).mp hc)) h

/-! ## Claim C7: the sorted listing is a pure view -/

instance : IsTotal Employee (fun a b => pyStrLe a.employee_id b.employee_id = true) :=
  ⟨fun a b => by
    rcases le_total a.employee_id b.employee_id with h | h
    · exact Or.inl ((pyStrLe_iff _ _).mpr h)
    · exact Or.inr ((pyStrLe_iff _ _).mpr h)⟩

instance : IsTrans Employee (fun a b => pyStrLe a.employee_id b.employee_id = true) :=
  ⟨fun _ _ _ h h2 => (pyStrLe_iff _ _).mpr
    (le_trans ((pyStrLe_iff _ _).mp h) ((pyStrLe_iff _ _).mp h2))⟩

/-- C7: `list_all_employees` presents all records sorted by employee id in
ascending lexicographic order, leaves the stored collection (insertion
order included) unchanged, and two successive calls with no intervening
mutation produce identical sequences. -/
theorem list_all_employees_pure_view (st : List Employee) :
    (list_all_employees st).2 = st ∧
    ((list_all_employees st).1).Perm st ∧
    ((list_all_employees st).1.map (fun e => e.employee_id)).Sorted (· ≤ ·) ∧
    (list_all_employees ((list_all_employees st).2)).1 = (list_all_employees st).1 := by
  refine ⟨rfl, List.perm_insertionSort _ st, ?_, rfl⟩
  rw [List.Sorted, List.pairwise_map]
  exact (List.sorted_insertionSort
    (fun a b : Employee => pyStrLe a.employee_id b.employee_id = true) st).imp
    (fun h => (pyStrLe_iff _ _).mp h)

/-! ## Claim C9: delimiter corruption on reload -/

/-- C9: persistence performs no quoting or escaping, so a validly
constructed record whose contact field contains the delimiter is not
reproduced on reload: its written line splits into seven fields and is
skipped as malformed, leaving the reloaded store empty. -/
theorem delimiter_corruption :
    ∃ e : Employee,
      Employee.make "E1" "Al" "Eng" 10 "a@b.c" "12, Main St" = Except.ok e ∧
      ',' ∈ e.contact_details.data ∧
      _load_employees (_save_employees [e]) = ([], [LoadDiag.malformed 2]) := by
  refine ⟨⟨"E1", "Al", "Eng", 10, "a@b.c", "12, Main St"⟩, rfl, by decide, by decide⟩

/-! ## Claim C6: the department report -/

instance : IsTotal Employee (fun a b => pyStrLe a.name b.name = true) :=
  ⟨fun a b => by
    rcases le_total a.name b.name with h | h
    · exact Or.inl ((pyStrLe_iff _ _).mpr h)
    · exact Or.inr ((pyStrLe_iff _ _).mpr h)⟩

instance : IsTrans Employee (fun a b => pyStrLe a.name b.name = true) :=
  ⟨fun _ _ _ h h2 => (pyStrLe_iff _ _).mpr
    (le_trans ((pyStrLe_iff _ _).mp h) ((pyStrLe_iff _ _).mp h2))⟩

instance : IsTotal DeptEntry (fun a b => pyStrLe a.display_name b.display_name = true) :=
  ⟨fun a b => by
    rcases le_total a.display_name b.display_name with h | h
    · exact Or.inl ((pyStrLe_iff _ _).mpr h)
    · exact Or.inr ((pyStrLe_iff _ _).mpr h)⟩

instance : IsTrans DeptEntry (fun a b => pyStrLe a.display_name b.display_name = true) :=
  ⟨fun _ _ _ h h2 => (pyStrLe_iff _ _).mpr
    (le_trans ((pyStrLe_iff _ _).mp h) ((pyStrLe_iff _ _).mp h2))⟩

theorem insertEntry_size (gs : List DeptEntry) (e : Employee) :
    ((insertEntry gs e).map (fun g => g.members.length)).sum
      = ((gs.map (fun g => g.members.length)).sum) + 1 := by
  induction gs with
  | nil => simp [insertEntry]
  | cons g rest ih =>
    unfold insertEntry
    split_ifs with h
    · simp only [List.map_cons, List.sum_cons, List.length_append,
        List.length_cons, List.length_nil]
      omega
    · simp only [List.map_cons, List.sum_cons, ih]
      omega

theorem groupByDept_size (st : List Employee) :
    ((groupByDept st).map (fun g => g.members.length)).sum = st.length := by
  suffices h : ∀ gs : List DeptEntry,
      ((st.foldl insertEntry gs).map (fun g => g.members.length)).sum
        = (gs.map (fun g => g.members.length)).sum + st.length by
    simpa using h []
  induction st with
  | nil =>
    intro gs
    simp
  | cons e rest ih =>
    intro gs
    show ((rest.foldl insertEntry (insertEntry gs e)).map _).sum = _
    rw [ih (insertEntry gs e), insertEntry_size]
    simp only [List.length_cons]
    omega

/-- C6: department grouping is case-insensitive and trim-normalized — the
three records with departments "Engineering", "engineering " and
"Marketing" form exactly two groups of sizes 2 and 1; each group's members
are sorted by name ascending, groups are ordered by display name ascending,
each group carries its employee count and salary total, and the grand
total employee count equals the number of records in the store. -/
theorem department_report_correct :
    ((generate_department_report
        [⟨"E1", "Alice", "Engineering", 100, "a@b.c", "1"⟩,
         ⟨"E2", "Bob", "engineering ", 200, "b@b.c", "2"⟩,
         ⟨"E3", "Carol", "Marketing", 300, "c@b.c", "3"⟩]).groups.map
          (fun g => (g.display_name, g.count))
        = [("Engineering", 2), ("Marketing", 1)]) ∧
    (∀ st : List Employee,
      (generate_department_report st).total_employees = st.length) ∧
    (∀ st : List Employee,
      ((generate_department_report st).groups.map
        (fun g => g.display_name)).Sorted (· ≤ ·)) ∧
    (∀ (st : List Employee) (g : DeptGroup),
      g ∈ (generate_department_report st).groups →
        ((g.members.map (fun e => e.name)).Sorted (· ≤ ·) ∧
         g.count = g.members.length ∧
         g.total_salary = (g.members.map (fun e => e.salary)).sum)) := by
  refine ⟨by decide, ?_, ?_, ?_⟩
  · intro st
    simp only [generate_department_report]
    rw [List.map_map]
    have hfun : ((fun g : DeptGroup => g.count) ∘ mkGroup)
        = fun g : DeptEntry => g.members.length := by
      funext g
      rfl
    rw [hfun]
    have hperm := (List.perm_insertionSort
      (fun a b : DeptEntry => pyStrLe a.display_name b.display_name = true)
      (groupByDept st)).map (fun g : DeptEntry => g.members.length)
    rw [hperm.sum_eq, groupByDept_size]
  · intro st
    simp only [generate_department_report]
    rw [List.Sorted, List.map_map, List.pairwise_map]
    exact (List.sorted_insertionSort
      (fun a b : DeptEntry => pyStrLe a.display_name b.display_name = true)
      (groupByDept st)).imp (fun h => (pyStrLe_iff _ _).mp h)
  · intro st g hg
    simp only [generate_department_report] at hg
    rw [List.mem_map] at hg
    obtain ⟨entry, _, rfl⟩ := hg
    refine ⟨?_, ?_, rfl⟩
    · rw [List.Sorted, List.pairwise_map]
      exact (List.sorted_insertionSort
        (fun a b : Employee => pyStrLe a.name b.name = true)
        entry.members).imp (fun h => (pyStrLe_iff _ _).mp h)
    · show entry.members.length
        = (List.insertionSort
            (fun a b => pyStrLe a.name b.name = true) entry.members).length
      rw [List.length_insertionSort]

/-- Witness for C6 at a concrete one-record store. -/
theorem department_report_correct_witness :
    ((mkGroup ⟨"marketing", "Marketing",
        [⟨"E3", "Carol", "Marketing", 300, "c@b.c", "3"⟩]⟩).members.map
          (fun e => e.name)).Sorted (· ≤ ·) ∧
    (mkGroup ⟨"marketing", "Marketing",
        [⟨"E3", "Carol", "Marketing", 300, "c@b.c", "3"⟩]⟩).count
      = (mkGroup ⟨"marketing", "Marketing",
          [⟨"E3", "Carol", "Marketing", 300, "c@b.c", "3"⟩]⟩).members.length ∧
    (mkGroup ⟨"marketing", "Marketing",
        [⟨"E3", "Carol", "Marketing", 300, "c@b.c", "3"⟩]⟩).total_salary
      = ((mkGroup ⟨"marketing", "Marketing",
          [⟨"E3", "Carol", "Marketing", 300, "c@b.c", "3"⟩]⟩).members.map
            (fun e => e.salary)).sum :=
  department_report_correct.2.2.2
    [⟨"E3", "Carol", "Marketing", 300, "c@b.c", "3"⟩]
    (mkGroup ⟨"marketing", "Marketing",
      [⟨"E3", "Carol", "Marketing", 300, "c@b.c", "3"⟩]⟩)
    (List.mem_cons_self _ _)

/-! ## Claim C8: frame property of update -/

theorem isEmpty_false_iff {α : Type} (l : List α) : l.isEmpty = false ↔ l ≠ [] := by
  cases l <;> simp

/-- C8: for every store state and every committed update of an existing
employee, only the fields with a supplied (non-empty) value change —
fields with no supplied value keep their current value — the target
record's employee id is never changed, and every record other than the
target is unchanged in position and content. -/
theorem update_employee_frame (st : List Employee)
    (eidRaw nameIn deptIn salIn emailIn contactIn : String)
    (i : Nat) (old : Employee)
    (hid : (is_valid_employee_id_format (pyStrip eidRaw)).1 = true)
    (hfind : _find_employee_index_by_id st (pyStrip eidRaw) = some i)
    (hget : st[i]? = some old)
    (hname : (pyStrip nameIn).data ≠ [] →
      (is_valid_name_format (pyStrip nameIn)).1 = true)
    (hdept : (pyStrip deptIn).data ≠ [] →
      (is_valid_department_format (pyStrip deptIn)).1 = true)
    (hsal : (pyStrip salIn).data ≠ [] →
      (is_valid_salary_format (pyStrip salIn)).1 = true)
    (hemail : (pyStrip emailIn).data ≠ [] →
      (is_valid_email_format (pyStrip emailIn)).1 = true)
    (hcontact : (pyStrip contactIn).data ≠ [] →
      (is_valid_contact_details_format (pyStrip contactIn)).1 = true)
    (hchange : ¬((pyStrip nameIn).data = [] ∧ (pyStrip deptIn).data = [] ∧
      (pyStrip salIn).data = [] ∧ (pyStrip emailIn).data = [] ∧
      (pyStrip contactIn).data = [])) :
    (update_employee st eidRaw nameIn deptIn salIn emailIn contactIn true).length
        = st.length ∧
    (∀ j : Nat, j ≠ i →
      (update_employee st eidRaw nameIn deptIn salIn emailIn contactIn true)[j]?
        = st[j]?) ∧
    (∃ upd : Employee,
      (update_employee st eidRaw nameIn deptIn salIn emailIn contactIn true)[i]?
          = some upd ∧
      upd.employee_id = old.employee_id ∧
      ((pyStrip nameIn).data = [] → upd.name = old.name) ∧
      ((pyStrip nameIn).data ≠ [] → upd.name = pyStrip nameIn) ∧
      ((pyStrip deptIn).data = [] → upd.department = old.department) ∧
      ((pyStrip deptIn).data ≠ [] → upd.department = pyStrip deptIn) ∧
      ((pyStrip salIn).data = [] → upd.salary = old.salary) ∧
      ((pyStrip salIn).data ≠ [] → upd.salary = (pyFloat (pyStrip salIn)).getD 0) ∧
      ((pyStrip emailIn).data = [] → upd.email = old.email) ∧
      ((pyStrip emailIn).data ≠ [] → upd.email = pyStrip emailIn) ∧
      ((pyStrip contactIn).data = [] → upd.contact_details = old.contact_details) ∧
      ((pyStrip contactIn).data ≠ [] → upd.contact_details = pyStrip contactIn)) := by
  have hlt : i < st.length := by
    by_contra hx
    rw [List.getElem?_eq_none (not_lt.mp hx)] at hget
    exact Option.noConfusion hget
  have hne : st.isEmpty = false := by
    cases st with
    | nil => simp at hlt
    | cons a l => rfl
  have hc1 : (!(pyStrip nameIn).data.isEmpty
      && !(is_valid_name_format (pyStrip nameIn)).1) = false := by
    cases he : (pyStrip nameIn).data.isEmpty
    · simp [hname ((isEmpty_false_iff _).mp he)]
    · simp [he]
  have hc2 : (!(pyStrip deptIn).data.isEmpty
      && !(is_valid_department_format (pyStrip deptIn)).1) = false := by
    cases he : (pyStrip deptIn).data.isEmpty
    · simp [hdept ((isEmpty_false_iff _).mp he)]
    · simp [he]
  have hc3 : (!(pyStrip salIn).data.isEmpty
      && !(is_valid_salary_format (pyStrip salIn)).1) = false := by
    cases he : (pyStrip salIn).data.isEmpty
    · simp [hsal ((isEmpty_false_iff _).mp he)]
    · simp [he]
  have hc4 : (!(pyStrip emailIn).data.isEmpty
      && !(is_valid_email_format (pyStrip emailIn)).1) = false := by
    cases he : (pyStrip emailIn).data.isEmpty
    · simp [hemail ((isEmpty_false_iff _).mp he)]
    · simp [he]
  have hc5 : (!(pyStrip contactIn).data.isEmpty
      && !(is_valid_contact_details_format (pyStrip contactIn)).1) = false := by
    cases he : (pyStrip contactIn).data.isEmpty
    · simp [hcontact ((isEmpty_false_iff _).mp he)]
    · simp [he]
  have hch : ((pyStrip nameIn).data.isEmpty && (pyStrip deptIn).data.isEmpty
      && (pyStrip salIn).data.isEmpty && (pyStrip emailIn).data.isEmpty
      && (pyStrip contactIn).data.isEmpty) = false := by
    by_contra hx
    simp only [Bool.not_eq_false, Bool.and_eq_true, List.isEmpty_iff] at hx
    exact hchange ⟨hx.1.1.1.1, hx.1.1.1.2, hx.1.1.2, hx.1.2, hx.2⟩
  have hst' : update_employee st eidRaw nameIn deptIn salIn emailIn contactIn true
      = st.set i
        { old with
          name := if (pyStrip nameIn).data.isEmpty then old.name else pyStrip nameIn,
          department := if (pyStrip deptIn).data.isEmpty then old.department
            else pyStrip deptIn,
          salary := if (pyStrip salIn).data.isEmpty then old.salary
            else (pyFloat (pyStrip salIn)).getD 0,
          email := if (pyStrip emailIn).data.isEmpty then old.email
            else pyStrip emailIn,
          contact_details := if (pyStrip contactIn).data.isEmpty
            then old.contact_details else pyStrip contactIn } := by
    simp only [update_employee, hne, Bool.false_eq_true, if_false, hid,
      Bool.not_true, hfind, hget, hc1, hc2, hc3, hc4, hc5, hch, Bool.not_false,
      if_true, if_false]
  rw [hst']
  refine ⟨List.length_set st i _, fun j hj => List.getElem?_set_ne (Ne.symm hj), ?_⟩
  refine ⟨_, List.getElem?_set_self hlt, rfl, ?_, ?_, ?_, ?_, ?_, ?_, ?_, ?_, ?_, ?_⟩
  · intro h
    simp [h]
  · intro h
    simp [(isEmpty_false_iff _).mpr h]
  · intro h
    simp [h]
  · intro h
    simp [(isEmpty_false_iff _).mpr h]
  · intro h
    simp [h]
  · intro h
    simp [(isEmpty_false_iff _).mpr h]
  · intro h
    simp [h]
  · intro h
    simp [(isEmpty_false_iff _).mpr h]
  · intro h
    simp [h]
  · intro h
    simp [(isEmpty_false_iff _).mpr h]

/-- Witness for C8: a committed department-only update of a one-record
store. -/
theorem update_employee_frame_witness :
    (update_employee [⟨"E1", "Al", "Eng", 100, "a@b.c", "1"⟩]
        "E1" "" "Research" "" "" "" true).length = 1 ∧
    (∀ j : Nat, j ≠ 0 →
      (update_employee [⟨"E1", "Al", "Eng", 100, "a@b.c", "1"⟩]
        "E1" "" "Research" "" "" "" true)[j]?
        = [(⟨"E1", "Al", "Eng", 100, "a@b.c", "1"⟩ : Employee)][j]?) ∧
    (∃ upd : Employee,
      (update_employee [⟨"E1", "Al", "Eng", 100, "a@b.c", "1"⟩]
          "E1" "" "Research" "" "" "" true)[0]? = some upd ∧
      upd.employee_id = (⟨"E1", "Al", "Eng", 100, "a@b.c", "1"⟩ : Employee).employee_id ∧
      ((pyStrip "").data = [] →
        upd.name = (⟨"E1", "Al", "Eng", 100, "a@b.c", "1"⟩ : Employee).name) ∧
      ((pyStrip "").data ≠ [] → upd.name = pyStrip "") ∧
      ((pyStrip "Research").data = [] →
        upd.department = (⟨"E1", "Al", "Eng", 100, "a@b.c", "1"⟩ : Employee).department) ∧
      ((pyStrip "Research").data ≠ [] → upd.department = pyStrip "Research") ∧
      ((pyStrip "").data = [] →
        upd.salary = (⟨"E1", "Al", "Eng", 100, "a@b.c", "1"⟩ : Employee).salary) ∧
      ((pyStrip "").data ≠ [] → upd.salary = (pyFloat (pyStrip "")).getD 0) ∧
      ((pyStrip "").data = [] →
        upd.email = (⟨"E1", "Al", "Eng", 100, "a@b.c", "1"⟩ : Employee).email) ∧
      ((pyStrip "").data ≠ [] → upd.email = pyStrip "") ∧
      ((pyStrip "").data = [] →
        upd.contact_details
          = (⟨"E1", "Al", "Eng", 100, "a@b.c", "1"⟩ : Employee).contact_details) ∧
      ((pyStrip "").data ≠ [] → upd.contact_details = pyStrip "")) :=
  update_employee_frame [⟨"E1", "Al", "Eng", 100, "a@b.c", "1"⟩]
    "E1" "" "Research" "" "" "" 0 ⟨"E1", "Al", "Eng", 100, "a@b.c", "1"⟩
    (by decide) (by decide) (by decide) (by decide) (by decide) (by decide)
    (by decide) (by decide) (by decide)

/-! ## Claim C3: load resilience -/

theorem splitVals_blank (l : String) (h : pyStrip l = "") : splitVals l = [""] := by
  unfold splitVals
  rw [h]
  rfl

theorem pyStrip_nonblank_of_arity (l : String) (h : (splitVals l).length = 6) :
    (pyStrip l).data.isEmpty = false := by
  cases he : (pyStrip l).data.isEmpty
  · rfl
  · have hb : pyStrip l = "" :=
      (string_eq_empty_iff _).mpr (by simpa using he)
    rw [splitVals_blank l hb] at h
    simp at h

/-- C3: a backing file with a header, one well-formed record line, one
wrong-arity line and one six-field line with unparseable salary loads to
exactly the one well-formed record plus one diagnostic per skipped line
(line numbers 1-indexed with the header as line 1); the load as a whole
does not fail. -/
theorem load_resilience (h l1 l2 l3 : String) (e : Employee)
    (h1 : (splitVals l1).length = 6 ∧
      Employee.from_dict (mkDict (splitVals l1)) = Except.ok (some e))
    (h2 : (pyStrip l2).data ≠ [] ∧ (splitVals l2).length ≠ 6)
    (h3 : (splitVals l3).length = 6 ∧
      Employee.from_dict (mkDict (splitVals l3)) = Except.ok none) :
    _load_employees [h, l1, l2, l3]
      = ([e], [LoadDiag.malformed 3, LoadDiag.invalidData 4]) := by
  obtain ⟨h1a, h1b⟩ := h1
  obtain ⟨h2a, h2b⟩ := h2
  obtain ⟨h3a, h3b⟩ := h3
  have hb1 : (pyStrip l1).data.isEmpty = false := pyStrip_nonblank_of_arity l1 h1a
  have hb2 : (pyStrip l2).data.isEmpty = false := (isEmpty_false_iff _).mpr h2a
  have hb3 : (pyStrip l3).data.isEmpty = false := pyStrip_nonblank_of_arity l3 h3a
  have hs1 : loadStep ([], []) (2, l1) = ([e], []) := by
    simp [loadStep, hb1, h1a, h1b, EMPLOYEE_KEYS]
  have hs2 : loadStep ([e], []) (3, l2) = ([e], [LoadDiag.malformed 3]) := by
    simp [loadStep, hb2, h2b, EMPLOYEE_KEYS]
  have hs3 : loadStep ([e], [LoadDiag.malformed 3]) (4, l3)
      = ([e], [LoadDiag.malformed 3, LoadDiag.invalidData 4]) := by
    simp [loadStep, hb3, h3a, h3b, EMPLOYEE_KEYS]
  show ([l1, l2, l3].enumFrom 2).foldl loadStep ([], [])
      = ([e], [LoadDiag.malformed 3, LoadDiag.invalidData 4])
  simp only [List.enumFrom_cons, List.enumFrom_nil, List.foldl_cons, List.foldl_nil]
  norm_num
  rw [hs1, hs2, hs3]

/-- Witness for C3 at a concrete four-line file. -/
theorem load_resilience_witness :
    _load_employees
        ["Employee ID,Name,Department,Salary,Email,Contact Details",
         "BF001,Alice Smith,Engineering,100,a@b.com,123",
         "bad,line",
         "BF002,Bob,Eng,abc,b@b.c,456"]
      = ([⟨"BF001", "Alice Smith", "Engineering", 100, "a@b.com", "123"⟩],
         [LoadDiag.malformed 3, LoadDiag.invalidData 4]) :=
  load_resilience
    "Employee ID,Name,Department,Salary,Email,Contact Details"
    "BF001,Alice Smith,Engineering,100,a@b.com,123"
    "bad,line"
    "BF002,Bob,Eng,abc,b@b.c,456"
    ⟨"BF001", "Alice Smith", "Engineering", 100, "a@b.com", "123"⟩
    ⟨by decide, by rfl⟩ ⟨by decide, by decide⟩ ⟨by decide, by rfl⟩

/-! ## Lemmas: case analyses of the mutating operations -/

theorem loadStep_fst_cases (acc : List Employee × List LoadDiag) (p : Nat × String) :
    (loadStep acc p).1 = acc.1 ∨
    ∃ emp, (loadStep acc p).1 = acc.1 ++ [emp] ∧
      (∀ ex ∈ acc.1, ex.employee_id ≠ emp.employee_id) ∧
      Employee.from_dict (mkDict (splitVals p.2)) = Except.ok (some emp) := by
  unfold loadStep
  by_cases hb : (pyStrip p.2).data.isEmpty = true
  · rw [if_pos hb]
    exact Or.inl rfl
  rw [if_neg hb]
  by_cases ha : (splitVals p.2).length = EMPLOYEE_KEYS.length
  · rw [if_pos ha]
    cases hfd : Employee.from_dict (mkDict (splitVals p.2)) with
    | error msg => exact Or.inl rfl
    | ok oe =>
      cases oe with
      | none => exact Or.inl rfl
      | some emp =>
        by_cases hdup : acc.1.any (fun ex => ex.employee_id = emp.employee_id) = true
        · left
          simp [hdup]
        · right
          refine ⟨emp, ?_, ?_, rfl⟩
          · simp [hdup]
          · intro ex hex heq
            exact hdup (List.any_eq_true.mpr ⟨ex, hex, by simp [heq]⟩)
  · rw [if_neg ha]
    exact Or.inl rfl

theorem add_employee_cases (st : List Employee) (eid nm dp sl em ct : String) :
    add_employee st eid nm dp sl em ct = (st, none) ∨
    ∃ e, add_employee st eid nm dp sl em ct
        = (st ++ [e], some (_save_employees (st ++ [e]))) ∧
      (∀ ex ∈ st, ex.employee_id ≠ e.employee_id) ∧
      ∃ i n d q em2 c2, Employee.make i n d q em2 c2 = Except.ok e := by
  unfold add_employee
  by_cases h1 : (is_valid_employee_id_format (pyStrip eid)).1 = true
  case neg =>
    rw [if_pos (by simp [Bool.not_eq_true] at h1 ⊢; exact h1)]
    exact Or.inl rfl
  rw [if_neg (by simp [h1])]
  by_cases h2 : _is_employee_id_unique st (pyStrip eid) = true
  case neg =>
    rw [if_pos (by simp [Bool.not_eq_true] at h2 ⊢; exact h2)]
    exact Or.inl rfl
  rw [if_neg (by simp [h2])]
  by_cases h3 : (is_valid_name_format (pyStrip nm)).1 = true
  case neg =>
    rw [if_pos (by simp [Bool.not_eq_true] at h3 ⊢; exact h3)]
    exact Or.inl rfl
  rw [if_neg (by simp [h3])]
  by_cases h4 : (is_valid_department_format (pyStrip dp)).1 = true
  case neg =>
    rw [if_pos (by simp [Bool.not_eq_true] at h4 ⊢; exact h4)]
    exact Or.inl rfl
  rw [if_neg (by simp [h4])]
  by_cases h5 : (is_valid_salary_format (pyStrip sl)).1 = true
  case neg =>
    rw [if_pos (by simp [Bool.not_eq_true] at h5 ⊢; exact h5)]
    exact Or.inl rfl
  rw [if_neg (by simp [h5])]
  by_cases h6 : (is_valid_email_format (pyStrip em)).1 = true
  case neg =>
    rw [if_pos (by simp [Bool.not_eq_true] at h6 ⊢; exact h6)]
    exact Or.inl rfl
  rw [if_neg (by simp [h6])]
  by_cases h7 : (is_valid_contact_details_format (pyStrip ct)).1 = true
  case neg =>
    rw [if_pos (by simp [Bool.not_eq_true] at h7 ⊢; exact h7)]
    exact Or.inl rfl
  rw [if_neg (by simp [h7])]
  cases hmk : Employee.make (pyStrip eid) (pyStrip nm) (pyStrip dp)
      ((pyFloat (pyStrip sl)).getD 0) (pyStrip em) (pyStrip ct) with
  | error msg => exact Or.inl rfl
  | ok e =>
    refine Or.inr ⟨e, rfl, ?_, pyStrip eid, pyStrip nm, pyStrip dp,
      (pyFloat (pyStrip sl)).getD 0, pyStrip em, pyStrip ct, hmk⟩
    have hid : e.employee_id = pyStrip eid := by
      obtain ⟨hv, _, _, _, _, _, rfl⟩ := (make_ok_iff _ _ _ _ _ _ _).mp hmk
      show pyStrip (pyStrip eid) = pyStrip eid
      rw [pyStrip_idem]
    intro ex hex
    rw [hid]
    have hnone : _find_employee_by_id st (pyStrip eid) = none := by
      unfold _is_employee_id_unique at h2
      exact of_decide_eq_true h2
    have := List.find?_eq_none.mp hnone ex hex
    simpa using this

theorem bool_false_of_not (b : Bool) (h : ¬(b = true)) : b = false := by
  cases b <;> simp_all

theorem update_employee_cases (st : List Employee)
    (eid nm dp sl em ct : String) (confirm : Bool) :
    update_employee st eid nm dp sl em ct confirm = st ∨
    ∃ (i : Nat) (old new : Employee), st[i]? = some old ∧
      update_employee st eid nm dp sl em ct confirm = st.set i new ∧
      new.employee_id = old.employee_id ∧
      (new.department = old.department ∨
        (is_valid_department_format new.department).1 = true) := by
  by_cases h0 : st.isEmpty = true
  · left
    simp [update_employee, h0]
  have hf0 := bool_false_of_not _ h0
  by_cases h1 : (is_valid_employee_id_format (pyStrip eid)).1 = true
  case neg =>
    left
    simp [update_employee, hf0, bool_false_of_not _ h1]
  cases hfind : _find_employee_index_by_id st (pyStrip eid) with
  | none =>
    left
    simp [update_employee, hf0, h1, hfind]
  | some i =>
    cases hget : st[i]? with
    | none =>
      left
      simp [update_employee, hf0, h1, hfind, hget]
    | some old =>
      by_cases hc1 : (!(pyStrip nm).data.isEmpty
          && !(is_valid_name_format (pyStrip nm)).1) = true
      · left
        simp only [update_employee, hf0, Bool.false_eq_true, if_false, h1,
          Bool.not_true, hfind, hget, hc1, if_true]
      have hc1f := bool_false_of_not _ hc1
      by_cases hc2 : (!(pyStrip dp).data.isEmpty
          && !(is_valid_department_format (pyStrip dp)).1) = true
      · left
        simp only [update_employee, hf0, Bool.false_eq_true, if_false, h1,
          Bool.not_true, hfind, hget, hc1f, hc2, if_true]
      have hc2f := bool_false_of_not _ hc2
      by_cases hc3 : (!(pyStrip sl).data.isEmpty
          && !(is_valid_salary_format (pyStrip sl)).1) = true
      · left
        simp only [update_employee, hf0, Bool.false_eq_true, if_false, h1,
          Bool.not_true, hfind, hget, hc1f, hc2f, hc3, if_true]
      have hc3f := bool_false_of_not _ hc3
      by_cases hc4 : (!(pyStrip em).data.isEmpty
          && !(is_valid_email_format (pyStrip em)).1) = true
      · left
        simp only [update_employee, hf0, Bool.false_eq_true, if_false, h1,
          Bool.not_true, hfind, hget, hc1f, hc2f, hc3f, hc4, if_true]
      have hc4f := bool_false_of_not _ hc4
      by_cases hc5 : (!(pyStrip ct).data.isEmpty
          && !(is_valid_contact_details_format (pyStrip ct)).1) = true
      · left
        simp only [update_employee, hf0, Bool.false_eq_true, if_false, h1,
          Bool.not_true, hfind, hget, hc1f, hc2f, hc3f, hc4f, hc5, if_true]
      have hc5f := bool_false_of_not _ hc5
      by_cases hch : ((pyStrip nm).data.isEmpty && (pyStrip dp).data.isEmpty
          && (pyStrip sl).data.isEmpty && (pyStrip em).data.isEmpty
          && (pyStrip ct).data.isEmpty) = true
      · left
        simp only [update_employee, hf0, Bool.false_eq_true, if_false, h1,
          Bool.not_true, hfind, hget, hc1f, hc2f, hc3f, hc4f, hc5f, hch, if_true]
      have hchf := bool_false_of_not _ hch
      cases confirm with
      | false =>
        left
        simp only [update_employee, hf0, Bool.false_eq_true, if_false, h1,
          Bool.not_true, hfind, hget, hc1f, hc2f, hc3f, hc4f, hc5f, hchf,
          Bool.not_false, if_true]
      | true =>
        have hst : update_employee st eid nm dp sl em ct true = st.set i
            { old with
              name := if (pyStrip nm).data.isEmpty then old.name else pyStrip nm,
              department := if (pyStrip dp).data.isEmpty then old.department
                else pyStrip dp,
              salary := if (pyStrip sl).data.isEmpty then old.salary
                else (pyFloat (pyStrip sl)).getD 0,
              email := if (pyStrip em).data.isEmpty then old.email
                else pyStrip em,
              contact_details := if (pyStrip ct).data.isEmpty
                then old.contact_details else pyStrip ct } := by
          simp only [update_employee, hf0, Bool.false_eq_true, if_false, h1,
            Bool.not_true, hfind, hget, hc1f, hc2f, hc3f, hc4f, hc5f, hchf,
            Bool.not_false, Bool.not_true, if_true, if_false]
        refine Or.inr ⟨i, old, _, hget, hst, rfl, ?_⟩
        by_cases hde : (pyStrip dp).data.isEmpty = true
        · left
          simp [hde]
        · right
          have hval : (is_valid_department_format (pyStrip dp)).1 = true := by
            by_contra hx
            have hvf := bool_false_of_not _ hx
            rw [bool_false_of_not _ hde, hvf] at hc2
            simp at hc2
          show (is_valid_department_format
            (if (pyStrip dp).data.isEmpty then old.department else pyStrip dp)).1 = true
          rw [if_neg (by simp [bool_false_of_not _ hde])]
          exact hval

theorem delete_employee_cases (st : List Employee) (eid : String) (confirm : Bool) :
    delete_employee st eid confirm = st ∨
    ∃ i, delete_employee st eid confirm = st.eraseIdx i := by
  unfold delete_employee
  by_cases h0 : st.isEmpty = true
  · rw [if_pos h0]
    exact Or.inl rfl
  rw [if_neg h0]
  by_cases h1 : (is_valid_employee_id_format (pyStrip eid)).1 = true
  case neg =>
    rw [if_pos (by simp [Bool.not_eq_true] at h1 ⊢; exact h1)]
    exact Or.inl rfl
  rw [if_neg (by simp [h1])]
  cases hfind : _find_employee_index_by_id st (pyStrip eid) with
  | none => exact Or.inl rfl
  | some i =>
    cases confirm with
    | false =>
      left
      simp
    | true =>
      exact Or.inr ⟨i, by simp⟩

/-! ## Lemmas: invariants of reachable stores -/

theorem dept_valid_strip_nonblank (s : String)
    (h : (is_valid_department_format s).1 = true) :
    (pyStrip s).data ≠ [] := by
  intro he
  have hb : (s.data.isEmpty || (pyStrip s).data.isEmpty) = true := by
    simp [he]
  unfold is_valid_department_format at h
  rw [if_pos hb] at h
  simp at h

theorem from_dict_ok_make (dct : EmployeeDict) (e : Employee)
    (h : Employee.from_dict dct = Except.ok (some e)) :
    ∃ sf : ℚ, Employee.make dct.employee_id dct.name dct.department sf
      dct.email dct.contact_details = Except.ok e := by
  unfold Employee.from_dict at h
  cases hpf : pyFloat dct.salary with
  | none => simp [hpf] at h
  | some sf =>
    simp only [hpf] at h
    cases hmk : Employee.make dct.employee_id dct.name dct.department sf
        dct.email dct.contact_details with
    | error msg => simp [hmk] at h
    | ok e2 =>
      simp only [hmk, Except.ok.injEq, Option.some.injEq] at h
      exact ⟨sf, h ▸ hmk⟩

theorem make_dept_nonblank (i n d : String) (q : ℚ) (em c : String)
    (e : Employee) (h : Employee.make i n d q em c = Except.ok e) :
    (pyStrip e.department).data ≠ [] := by
  obtain ⟨_, _, h3, _, _, _, rfl⟩ := (make_ok_iff i n d q em c e).mp h
  show (pyStrip (pyStrip d)).data ≠ []
  rw [pyStrip_idem]
  exact dept_valid_strip_nonblank d h3

theorem load_foldl_dept (ps : List (Nat × String)) :
    ∀ acc : List Employee × List LoadDiag,
      (∀ e ∈ acc.1, (pyStrip e.department).data ≠ []) →
      ∀ e ∈ (ps.foldl loadStep acc).1, (pyStrip e.department).data ≠ [] := by
  induction ps with
  | nil => exact fun acc h => h
  | cons p rest ih =>
    intro acc h
    rw [List.foldl_cons]
    apply ih
    rcases loadStep_fst_cases acc p with heq | ⟨emp, heq, _, hfd⟩
    · rw [heq]; exact h
    · rw [heq]
      intro e he
      rcases List.mem_append.mp he with he1 | he2
      · exact h e he1
      · have he3 : e = emp := by simpa using he2
        subst he3
        obtain ⟨sf, hmk⟩ := from_dict_ok_make _ e hfd
        exact make_dept_nonblank _ _ _ _ _ _ _ hmk

theorem reachable_dept (st : List Employee) (h : Reachable st) :
    ∀ e ∈ st, (pyStrip e.department).data ≠ [] := by
  induction h with
  | load lines =>
    cases lines with
    | nil => intro e he; simp [_load_employees] at he
    | cons hd rest =>
      show ∀ e ∈ ((rest.enumFrom 2).foldl loadStep ([], [])).1, _
      refine load_foldl_dept _ ([], []) ?_
      intro e he
      simp at he
  | add st2 eid nm dp sl em ct _ ih =>
    rcases add_employee_cases st2 eid nm dp sl em ct with
      heq | ⟨e2, heq, _, i2, n2, d2, q2, em2, c2, hmk⟩
    · rw [heq]; exact ih
    · rw [heq]
      intro e he
      rcases List.mem_append.mp he with he1 | he2
      · exact ih e he1
      · have he3 : e = e2 := by simpa using he2
        subst he3
        exact make_dept_nonblank _ _ _ _ _ _ _ hmk
  | update st2 eid nm dp sl em ct confirm _ ih =>
    rcases update_employee_cases st2 eid nm dp sl em ct confirm with
      heq | ⟨i, old, new, hget, heq, _, hdep⟩
    · rw [heq]; exact ih
    · rw [heq]
      intro e he
      rcases List.mem_or_eq_of_mem_set he with he1 | he2
      · exact ih e he1
      · subst he2
        rcases hdep with hsame | hval
        · rw [hsame]
          have hmem : old ∈ st2 := by
            rcases List.getElem?_eq_some.mp hget with ⟨hlt, hgeq⟩
            exact hgeq ▸ List.getElem_mem hlt
          exact ih old hmem
        · exact dept_valid_strip_nonblank _ hval
  | delete st2 eid confirm _ ih =>
    rcases delete_employee_cases st2 eid confirm with heq | ⟨i, heq⟩
    · rw [heq]; exact ih
    · rw [heq]
      intro e he
      exact ih e ((List.eraseIdx_sublist st2 i).subset he)

theorem set_of_getElem_eq {α : Type} (l : List α) (i : Nat) (a : α)
    (h : l[i]? = some a) : l.set i a = l := by
  apply List.ext_getElem?
  intro j
  rcases eq_or_ne i j with rfl | hne
  · rw [h]
    have hlen : i < l.length := by
      by_contra hx
      rw [List.getElem?_eq_none (Nat.le_of_not_lt hx)] at h
      exact Option.noConfusion h
    exact List.getElem?_set_self hlen
  · exact List.getElem?_set_ne hne

theorem pairwise_ids_set (st : List Employee) (i : Nat) (old new : Employee)
    (hget : st[i]? = some old) (hid : new.employee_id = old.employee_id)
    (h : st.Pairwise fun a b => a.employee_id ≠ b.employee_id) :
    (st.set i new).Pairwise fun a b => a.employee_id ≠ b.employee_id := by
  have hmap : (st.set i new).map (fun e => e.employee_id)
      = st.map (fun e => e.employee_id) := by
    rw [List.map_set, hid]
    refine set_of_getElem_eq _ _ _ ?_
    simp [hget]
  have h2 : ((st.map fun e => e.employee_id)).Pairwise (fun x y => x ≠ y) :=
    List.pairwise_map.mpr h
  rw [← hmap] at h2
  exact List.pairwise_map.mp h2

theorem load_foldl_pairwise (ps : List (Nat × String)) :
    ∀ acc : List Employee × List LoadDiag,
      acc.1.Pairwise (fun a b => a.employee_id ≠ b.employee_id) →
      (ps.foldl loadStep acc).1.Pairwise
        (fun a b => a.employee_id ≠ b.employee_id) := by
  induction ps with
  | nil => exact fun acc h => h
  | cons p rest ih =>
    intro acc h
    rw [List.foldl_cons]
    apply ih
    rcases loadStep_fst_cases acc p with heq | ⟨emp, heq, hni, _⟩
    · rw [heq]; exact h
    · rw [heq]
      rw [List.pairwise_append]
      refine ⟨h, by simp, ?_⟩
      intro a ha b hb
      have hb2 : b = emp := by simpa using hb
      subst hb2
      exact hni a ha

theorem reachable_pairwise_ids (st : List Employee) (h : Reachable st) :
    st.Pairwise (fun a b => a.employee_id ≠ b.employee_id) := by
  induction h with
  | load lines =>
    cases lines with
    | nil => simp [_load_employees]
    | cons hd rest =>
      show ((rest.enumFrom 2).foldl loadStep ([], [])).1.Pairwise _
      exact load_foldl_pairwise _ ([], []) (by simp)
  | add st2 eid nm dp sl em ct _ ih =>
    rcases add_employee_cases st2 eid nm dp sl em ct with heq | ⟨e2, heq, hni, _⟩
    · rw [heq]; exact ih
    · rw [heq]
      show (st2 ++ [e2]).Pairwise _
      rw [List.pairwise_append]
      refine ⟨ih, by simp, ?_⟩
      intro a ha b hb
      have hb2 : b = e2 := by simpa using hb
      subst hb2
      exact hni a ha
  | update st2 eid nm dp sl em ct confirm _ ih =>
    rcases update_employee_cases st2 eid nm dp sl em ct confirm with
      heq | ⟨i, old, new, hget, heq, hid, _⟩
    · rw [heq]; exact ih
    · rw [heq]
      exact pairwise_ids_set st2 i old new hget hid ih
  | delete st2 eid confirm _ ih =>
    rcases delete_employee_cases st2 eid confirm with heq | ⟨i, heq⟩
    · rw [heq]; exact ih
    · rw [heq]
      exact List.Pairwise.sublist (List.eraseIdx_sublist st2 i) ih

/-! ## Claim C1: id uniqueness -/

/-- C1: employee ids are pairwise distinct in every reachable store state.
First, `add_employee` leaves the store unchanged and persists nothing when
the stripped id is already present.  Second, at load time a parsed line
whose id matches one already accepted in the same pass is skipped with a
duplicate-id diagnostic, keeping the first-seen record.  Hence, third,
every pair of distinct records in a reachable store differs in
`employee_id`. -/
theorem employee_ids_distinct :
    (∀ (st : List Employee) (eid nm dp sl em ct : String),
      _is_employee_id_unique st (pyStrip eid) = false →
      add_employee st eid nm dp sl em ct = (st, none)) ∧
    (∀ (acc : List Employee × List LoadDiag) (n : Nat) (line : String)
        (emp : Employee),
      (pyStrip line).data.isEmpty = false →
      (splitVals line).length = EMPLOYEE_KEYS.length →
      Employee.from_dict (mkDict (splitVals line)) = Except.ok (some emp) →
      acc.1.any (fun ex => ex.employee_id = emp.employee_id) = true →
      loadStep acc (n, line)
        = (acc.1, acc.2 ++ [LoadDiag.duplicateId n emp.employee_id])) ∧
    (∀ st : List Employee, Reachable st →
      st.Pairwise (fun a b => a.employee_id ≠ b.employee_id)) := by
  refine ⟨?_, ?_, fun st h => reachable_pairwise_ids st h⟩
  · intro st eid nm dp sl em ct hdup
    by_cases h1 : (is_valid_employee_id_format (pyStrip eid)).1 = true
    · simp [add_employee, h1, hdup]
    · simp [add_employee, bool_false_of_not _ h1]
  · intro acc n line emp hb ha hfd hdup
    simp [loadStep, hb, ha, hfd, hdup]

/-- Witness for C1: a duplicate-id add attempt against a one-record store
is a no-op, the loader skips a duplicate-id line with its diagnostic, and
a concretely loaded store has pairwise distinct ids. -/
theorem employee_ids_distinct_witness :
    add_employee [⟨"E001", "Alice", "Engineering", 100, "a@x.com", "555"⟩]
        "E001" "Bob" "Sales" "200" "b@x.com" "777"
      = ([⟨"E001", "Alice", "Engineering", 100, "a@x.com", "555"⟩], none) ∧
    loadStep ([⟨"E001", "Alice", "Engineering", 100, "a@x.com", "555"⟩], [])
        (3, "E001,Bob,Sales,200,b@x.com,777")
      = ([⟨"E001", "Alice", "Engineering", 100, "a@x.com", "555"⟩],
         [LoadDiag.duplicateId 3 "E001"]) ∧
    ((_load_employees
        ["Employee ID,Name,Department,Salary,Email,Contact Details",
         "E001,Alice,Engineering,100,a@x.com,555"]).1).Pairwise
      (fun a b => a.employee_id ≠ b.employee_id) :=
  ⟨employee_ids_distinct.1
      [⟨"E001", "Alice", "Engineering", 100, "a@x.com", "555"⟩]
      "E001" "Bob" "Sales" "200" "b@x.com" "777" (by decide),
   employee_ids_distinct.2.1
      ([⟨"E001", "Alice", "Engineering", 100, "a@x.com", "555"⟩], [])
      3 "E001,Bob,Sales,200,b@x.com,777"
      ⟨"E001", "Bob", "Sales", 200, "b@x.com", "777"⟩
      (by decide) (by decide) (by rfl) (by decide),
   employee_ids_distinct.2.2 _ (Reachable.load _)⟩

/-! ## Claim C10: the department of a stored record is never blank -/

/-- C10 (implicit): every record of a reachable store has a department
that is non-blank after trimming — the department validator rejects blank
input and `Employee.make` is the only way a record enters the store — so
the record's department is non-empty and the `"uncategorized"` sentinel
branches of `deptKey` and `deptDisplay` are never taken for it. -/
theorem department_nonblank_invariant (st : List Employee) (h : Reachable st)
    (e : Employee) (he : e ∈ st) :
    (pyStrip e.department).data ≠ [] ∧
    e.department ≠ "" ∧
    deptKey e = pyToLower (pyStrip e.department) ∧
    deptDisplay e = pyStrip e.department := by
  have hd := reachable_dept st h e he
  have hne : e.department.data.isEmpty = false := by
    cases hx : e.department.data.isEmpty
    · rfl
    · exfalso
      apply hd
      have hdep : e.department = "" := (string_eq_empty_iff _).mpr (by simpa using hx)
      rw [hdep]
      decide
  refine ⟨hd, ?_, ?_, ?_⟩
  · intro hx
    rw [hx] at hd
    exact hd (by decide)
  · unfold deptKey
    rw [if_neg (by simp [hne])]
  · unfold deptDisplay
    rw [if_neg (by simp [hne])]

/-- Witness for C10: the one record of a concretely loaded store has a
non-blank department and takes the non-sentinel branches of `deptKey` and
`deptDisplay`. -/
theorem department_nonblank_invariant_witness :
    (pyStrip (⟨"W001", "Wendy", "Research", 100, "w@x.com", "999"⟩ :
        Employee).department).data ≠ [] ∧
    (⟨"W001", "Wendy", "Research", 100, "w@x.com", "999"⟩ :
        Employee).department ≠ "" ∧
    deptKey ⟨"W001", "Wendy", "Research", 100, "w@x.com", "999"⟩
      = pyToLower (pyStrip (⟨"W001", "Wendy", "Research", 100, "w@x.com",
          "999"⟩ : Employee).department) ∧
    deptDisplay ⟨"W001", "Wendy", "Research", 100, "w@x.com", "999"⟩
      = pyStrip (⟨"W001", "Wendy", "Research", 100, "w@x.com", "999"⟩ :
          Employee).department :=
  department_nonblank_invariant
    (_load_employees
      ["Employee ID,Name,Department,Salary,Email,Contact Details",
       "W001,Wendy,Research,100,w@x.com,999"]).1
    (Reachable.load _)
    ⟨"W001", "Wendy", "Research", 100, "w@x.com", "999"⟩
    (by decide)

/-! ## Claim C5: the salary validator, corrected for float()'s special values -/

theorem pyFloatFull_nonblank (s : String) (v : PyFloatVal)
    (h : pyFloatFull s = some v) : pyStrip s ≠ "" := by
  intro he
  have h2 := pyStrip_data s
  rw [he] at h2
  have hd : pyStripChars s.data = [] := by simpa using h2.symm
  simp [pyFloatFull, pyFloatFullChars, hd] at h

/-- C5 (corrected): the salary validator, rendered faithfully over
Python's `float()` (`is_valid_salary_format_full`), accepts a string iff
it is non-blank and `float()` parsing succeeds with a value that does not
compare below zero.  Because `float("nan")` and `float("inf")` succeed
and neither is `< 0`, the validator accepts them although they are no
real number at all, while `"-inf"` is rejected as negative.  On text
parsing to a finite value the original statement stands: acceptance is
exactly non-negativity, zero and fractional values are accepted, and the
empty, non-numeric and negative cases keep their three distinct failure
messages. -/
theorem salary_validator_corrected :
    (∀ s : String, (is_valid_salary_format_full s).1 = true ↔
        (pyStrip s ≠ "" ∧
          ∃ v : PyFloatVal, pyFloatFull s = some v ∧ v.ltZero = false)) ∧
    (∀ (s : String) (q : ℚ), pyFloatFull s = some (PyFloatVal.finite q) →
        ((is_valid_salary_format_full s).1 = true ↔ 0 ≤ q)) ∧
    (is_valid_salary_format_full "nan").1 = true ∧
    (is_valid_salary_format_full "inf").1 = true ∧
    (is_valid_salary_format_full "-inf").1 = false ∧
    (is_valid_salary_format_full "0").1 = true ∧
    (is_valid_salary_format_full "0.5").1 = true ∧
    (is_valid_salary_format_full "").1 = false ∧
    (is_valid_salary_format_full "   ").1 = false ∧
    (is_valid_salary_format_full "-1").1 = false ∧
    (is_valid_salary_format_full "+").1 = false ∧
    (is_valid_salary_format_full "abc").1 = false ∧
    (is_valid_salary_format_full "").2 = "Salary cannot be empty." ∧
    (is_valid_salary_format_full "abc").2
      = "Salary must be a valid number (e.g., 50000 or 65000.50)." ∧
    (is_valid_salary_format_full "-1").2 = "Salary cannot be negative." ∧
    (is_valid_salary_format_full "").2 ≠ (is_valid_salary_format_full "abc").2 ∧
    (is_valid_salary_format_full "abc").2 ≠ (is_valid_salary_format_full "-1").2 ∧
    (is_valid_salary_format_full "").2 ≠ (is_valid_salary_format_full "-1").2 := by
  have hiff : ∀ s : String, (is_valid_salary_format_full s).1 = true ↔
      (pyStrip s ≠ "" ∧
        ∃ v : PyFloatVal, pyFloatFull s = some v ∧ v.ltZero = false) := by
    intro s
    unfold is_valid_salary_format_full
    split_ifs with h1 h2 h3
    · have hempty : (pyStrip s).data = [] := by
        rcases Bool.or_eq_true_iff.mp h1 with h | h
        · have hs : s.data = [] := by simpa using h
          rw [pyStrip_data, hs]
          rfl
        · simpa using h
      simp only [Bool.false_eq_true, false_iff, not_and]
      intro hne
      exact absurd ((string_eq_empty_iff (pyStrip s)).mpr hempty) hne
    · have hnone : pyFloatFull s = none := Option.isNone_iff_eq_none.mp h2
      simp only [Bool.false_eq_true, false_iff, not_and]
      rintro _ ⟨v, hv, _⟩
      rw [hnone] at hv
      exact Option.noConfusion hv
    · simp only [Bool.false_eq_true, false_iff, not_and]
      rintro _ ⟨v, hv, hv0⟩
      rw [hv] at h3
      simp only [Option.getD_some] at h3
      rw [hv0] at h3
      simp at h3
    · constructor
      · intro _
        refine ⟨?_, ?_⟩
        · intro he
          have hd := (string_eq_empty_iff _).mp he
          simp [hd] at h1
        · cases hv : pyFloatFull s with
          | none => exact absurd (Option.isNone_iff_eq_none.mpr hv) h2
          | some v =>
            refine ⟨v, rfl, ?_⟩
            rw [hv] at h3
            simp only [Option.getD_some] at h3
            exact bool_false_of_not _ h3
      · intro _
        rfl
  have hfin : ∀ (s : String) (q : ℚ),
      pyFloatFull s = some (PyFloatVal.finite q) →
      ((is_valid_salary_format_full s).1 = true ↔ 0 ≤ q) := by
    intro s q hq
    rw [hiff s]
    constructor
    · rintro ⟨-, v, hv, hv0⟩
      rw [hq] at hv
      injection hv with hv
      subst hv
      simp only [PyFloatVal.ltZero, decide_eq_false_iff_not, not_lt] at hv0
      exact hv0
    · intro h0
      refine ⟨pyFloatFull_nonblank s _ hq, PyFloatVal.finite q, hq, ?_⟩
      show decide (q < 0) = false
      exact decide_eq_false (not_lt.mpr h0)
  refine ⟨hiff, hfin, by decide, by decide, by decide, by decide, ?_,
    by decide, by decide, by decide, by decide, by decide, by decide,
    by decide, by decide, by decide, by decide, by decide⟩
  refine (hiff "0.5").mpr ⟨by decide, PyFloatVal.finite _, rfl, ?_⟩
  simp only [PyFloatVal.ltZero, decide_eq_false_iff_not, not_lt]
  positivity

/-- C5: counterexample to the original claim at `"nan"` — Python's
`float("nan")` succeeds and `nan < 0` is `False`, so the source's
validator accepts `"nan"` (and likewise `"inf"`) although it parses to no
real number at all; the finite-only parse `pyFloat` has no value for it. -/
theorem salary_validator_correct_counterexample :
    (is_valid_salary_format_full "nan").1 = true ∧
    pyFloatFull "nan" = some PyFloatVal.nan ∧
    (∀ q : ℚ, pyFloatFull "nan" ≠ some (PyFloatVal.finite q)) ∧
    pyFloat "nan" = none ∧
    (is_valid_salary_format_full "inf").1 = true ∧
    pyFloatFull "inf" = some PyFloatVal.inf := by
  refine ⟨by decide, by decide, ?_, by decide, by decide, by decide⟩
  intro q hq
  rw [show pyFloatFull "nan" = some PyFloatVal.nan from by decide] at hq
  simp at hq

end EmployeeManagement
